import Mathlib

/-!
Verification development for the kkbot repository (Feishu agent bot).

The development shallowly embeds the core of the repository:

* `kkbot/tools.py` and the tool section of `kkbot/agent.py` (tool schema,
  tool execution, `_edit_file`, `_patch_file`, `_run_tool`, `run_tool`);
* `kkbot/llm.py` (LLM response normalization, tool-call argument decoding);
* `kkbot/session.py` (`Session.get_history`, `Session.save_turn`,
  `SessionManager.get`);
* the agent loop `AgentLoop.run` of `kkbot/agent.py`.

Modelling conventions:

* Python `dict`s decoded from model-emitted JSON become association lists of
  `JVal` (JSON-typed values); Python dynamic typing is made explicit by
  helper functions returning `Except PyErr`, one per implicit conversion the
  source performs, so that a branch of the source that can raise a `TypeError`
  or `ValueError` is a branch that can return `Except.error` here.
* The filesystem is a finite map from path strings to file contents; external
  effects (subprocess, HTTP, the HTML-stripping regexes, the JSON parser of
  `json.loads`) are uninterpreted oracle fields of an `Env` record, so every
  theorem quantifies over all of their possible outcomes.
* Machine integers do not overflow in any modelled code path; `Int`/`Nat`
  are used directly.
-/

set_option autoImplicit false

namespace KKBot

/-! ## JSON values and argument mappings -/

/-- JSON-typed values, as produced by `json.loads` on the model's serialized
tool-call arguments.  JSON numbers are modelled as integers; no modelled
code path distinguishes integral floats from ints. -/
inductive JVal where
  | jnull
  | jbool (b : Bool)
  | jint (n : Int)
  | jstr (s : String)
  | jarr (xs : List JVal)
  | jobj (fields : List (String × JVal))

/-- An argument mapping: a Python `dict` with string keys and JSON values. -/
abbrev Args : Type := List (String × JVal)

/-- Python `args.get(k, default)`: the value bound to `k`, or `default`. -/
def Args.getD (a : Args) (k : String) (default : JVal) : JVal :=
  match List.lookup k a with
  | some v => v
  | none => default

/-! ## Python dynamic-typing helpers

Each helper makes explicit one implicit conversion performed by the Python
source, and fails exactly where CPython raises. -/

/-- Python exception kinds that can escape the modelled code. -/
inductive PyErr where
  | typeError
  | valueError
  | attributeError
  | indexError
  | osError
deriving DecidableEq, Repr

/-- Python truthiness-based `x or d` for an optional string (`None` and the
empty string are falsy). -/
def pyOrStr (x : Option String) (d : String) : String :=
  match x with
  | none => d
  | some s => if s = "" then d else s

/-- Whether a character is ASCII whitespace (Python `str.strip` also
strips some unicode whitespace, irrelevant to every claim). -/
def isSpaceChar (c : Char) : Bool := c = ' ' ∨ c = '\t' ∨ c = '\n' ∨ c = '\r'

/-- Drop leading whitespace. -/
def stripLeft (cs : List Char) : List Char := cs.dropWhile isSpaceChar

/-- Drop trailing whitespace (Python `str.rstrip`). -/
def stripRight (cs : List Char) : List Char := (cs.reverse.dropWhile isSpaceChar).reverse

/-- Python `str.strip()` on a character list. -/
def pyStripList (cs : List Char) : List Char := stripRight (stripLeft cs)

/-- Python `str.strip()`. -/
def pyStrip (s : String) : String := String.mk (pyStripList s.data)

/-- Whether a character is an ASCII digit. -/
def isDigitChar (c : Char) : Bool := '0' ≤ c ∧ c ≤ '9'

/-- Numeric value of a digit string (most significant first). -/
def digitsToNat (cs : List Char) : Nat :=
  cs.foldl (fun acc c => acc * 10 + (c.toNat - '0'.toNat)) 0

/-- Python `int(s)` on a string: optional surrounding whitespace, optional
sign, then a non-empty digit run (underscore grouping is not modelled). -/
def pyIntOfString (s : String) : Except PyErr Int :=
  let cs := pyStripList s.data
  let (sign, digits) :=
    match cs with
    | '+' :: rest => (1, rest)
    | '-' :: rest => (-1, rest)
    | rest => ((1 : Int), rest)
  if digits ≠ [] ∧ digits.all isDigitChar then
    Except.ok (sign * (digitsToNat digits : Int))
  else
    Except.error PyErr.valueError

/-- Python `int(v)` on a JSON-typed value: ints pass through, bools coerce,
numeric strings parse, everything else raises. -/
def pyInt (v : JVal) : Except PyErr Int :=
  match v with
  | JVal.jint n => Except.ok n
  | JVal.jbool b => Except.ok (if b then 1 else 0)
  | JVal.jstr s => pyIntOfString s
  | _ => Except.error PyErr.typeError

/-- Python `max(v, 1)` / `min(·, 10)` operand coercion: comparing a string,
list, dict or `None` against an int raises `TypeError`. -/
def pyCmpInt (v : JVal) : Except PyErr Int :=
  match v with
  | JVal.jint n => Except.ok n
  | JVal.jbool b => Except.ok (if b then 1 else 0)
  | _ => Except.error PyErr.typeError

/-- Value that must be a `str` for an attribute access such as `.strip()`;
anything else raises `AttributeError`. -/
def pyStrAttr (v : JVal) : Except PyErr String :=
  match v with
  | JVal.jstr s => Except.ok s
  | _ => Except.error PyErr.attributeError

/-- Value passed to `Path(...)`: only `str` is accepted, anything else
raises `TypeError`. -/
def pyPath (v : JVal) : Except PyErr String :=
  match v with
  | JVal.jstr s => Except.ok s
  | _ => Except.error PyErr.typeError

/-- Value used as the second operand of `str.count` / `str.replace`:
must be a `str`, anything else raises `TypeError`. -/
def pyStrArg (v : JVal) : Except PyErr String :=
  match v with
  | JVal.jstr s => Except.ok s
  | _ => Except.error PyErr.typeError

/-- Python `str(v)` rendering used in f-strings (shape only; exact rendering
of containers is irrelevant to every claim). -/
def pyStr : JVal → String
  | JVal.jnull => "None"
  | JVal.jbool b => if b then "True" else "False"
  | JVal.jint n => toString n
  | JVal.jstr s => s
  | JVal.jarr _ => "[...]"
  | JVal.jobj _ => "(dict)"

/-! ## Python `str.count` and `str.replace(old, new, 1)`

`_edit_file` / `_patch_file` use `text.count(old)` (the number of
non-overlapping occurrences, scanning left to right; `count("") = len + 1`)
and `text.replace(old, new, 1)` (replace the leftmost occurrence;
`replace("", new, 1)` prepends `new`).  Both are modelled on `List Char`. -/

/-- Non-overlapping occurrences of a non-empty pattern, scanning left to
right (the behaviour of CPython `str.count` for non-empty arguments).
The fuel argument makes the recursion structural; any fuel of at least the
text length gives the scan's value, since each step consumes at least one
character. -/
def countAux (pat : List Char) : Nat → List Char → Nat
  | _, [] => 0
  | 0, _ :: _ => 0
  | fuel + 1, c :: t =>
    if pat.isPrefixOf (c :: t) then
      1 + countAux pat fuel ((c :: t).drop pat.length)
    else
      countAux pat fuel t

/-- Python `text.count(pat)` (`count("") = len + 1`). -/
def pyCount (text pat : List Char) : Nat :=
  if pat = [] then text.length + 1 else countAux pat text.length text

/-- Replace the leftmost occurrence of a non-empty pattern. -/
def replaceFirstNE (pat new : List Char) : List Char → List Char
  | [] => []
  | c :: t =>
    if pat.isPrefixOf (c :: t) then new ++ ((c :: t).drop pat.length)
    else c :: replaceFirstNE pat new t

/-- Python `text.replace(pat, new, 1)`: replace the leftmost occurrence of
`pat` by `new`; if `pat` does not occur, the text is returned unchanged
(`replace("", new, 1)` prepends `new`). -/
def pyReplaceFirst (text pat new : List Char) : List Char :=
  if pat = [] then new ++ text else replaceFirstNE pat new text

/-! ## Filesystem and effect environment -/

/-- The workspace filesystem: a finite map from absolute path strings to
file contents.  `read` models `Path.read_text` (failure = no such file;
other I/O errors are folded into absence), `write` models `Path.write_text`
(create or overwrite). -/
abbrev FS : Type := List (String × String)

/-- Contents of the file at `p`, if it exists. -/
def FS.read (fs : FS) (p : String) : Option String :=
  List.lookup p fs

/-- Write `contents` at path `p`, overwriting any previous file (the new
entry shadows older entries for `read`). -/
def FS.write (fs : FS) (p : String) (contents : String) : FS :=
  (p, contents) :: fs

/-- Outcome of `subprocess.run(cmd, shell=True, ..., timeout=timeout)`:
normal completion with captured streams, `TimeoutExpired`, or any other
exception. -/
inductive ShellOutcome where
  | completed (stdout stderr : String)
  | timedOut
  | exc (msg : String)

/-- One Brave Search result item (title, url, description). -/
structure SearchItem where
  title : String
  url : String
  desc : String

/-- Oracle environment for everything outside the modelled code: the
workspace filesystem, the long-term memory blob, and uninterpreted outcomes
of subprocess, HTTP and regex operations.  A theorem quantified over `Env`
holds for every behaviour of these externals.

`writeOk p` tells whether creating parent directories and writing at path
`p` succeeds at the OS level (the source wraps these in `try/except`).

`memLoadOk` / `memWriteOk` tell whether `MemoryStore.load`'s `read_text`
and `MemoryStore.append`'s `write_text` (session.py lines 20-28) succeed at
the OS level.  Unlike the file tools, the executors call `memory.load()` /
`memory.append(c)` outside any `try`, so these failures raise `OSError`
through the executor. -/
structure Env where
  fs : FS
  memory : String
  memLoadOk : Bool
  memWriteOk : Bool
  workspace : String
  braveApiKey : String
  shellOut : JVal → Int → ShellOutcome
  writeOk : String → Bool
  searchRes : JVal → Int → Except String (List SearchItem)
  fetchRes : JVal → Except String String
  stripHtml : String → String

/-- Python `path if path.is_absolute() else workspace / path` (the
`resolve` helper of `_run_tool` and `_resolve` of `tools.py`;
`expanduser` home expansion is not modelled). -/
def resolvePath (workspace p : String) : String :=
  if p.startsWith "/" then p else workspace ++ "/" ++ p

/-! ## edit_file and patch_file

`_edit_file` (tools.py lines 163-177) and `_patch_file` (agent.py lines
126-144), plus the dynamically-typed wrappers through which `run_tool` /
`_run_tool` invoke them with raw JSON argument values. -/

/-- One patch pair of the `patch_file` tool. -/
structure Patch where
  old : String
  new : String

/-- Core of `_edit_file` after the file has been read: occurrence count,
uniqueness check, and the conditional write-back. -/
def editCore (env : Env) (path text old new : String) : Env × String :=
  let count := pyCount text.data old.data
  if count = 0 then (env, "Error: `old` not found in file")
  else if count > 1 then
    (env, "Error: `old` matches " ++ toString count ++ " times (must be unique)")
  else if env.writeOk path then
    ({ env with fs := env.fs.write path ⟨pyReplaceFirst text.data old.data new.data⟩ },
     "Edited " ++ path)
  else (env, "Error writing file: (disk error)")

/-- The `_edit_file` helper of `tools.py`: read, check that `old` occurs
exactly once, replace its single occurrence and write back; every failure
becomes an error string and the file is left unchanged. -/
def editFile (env : Env) (path old new : String) : Env × String :=
  match env.fs.read path with
  | none => (env, "Error reading file: (no such file)")
  | some text => editCore env path text old new

/-- The loop body of `_patch_file`: for each indexed patch, count `old` in
the text as patched so far; occurrences of 0 or more than 1 append an error
naming the patch index, exactly one applies the replacement in memory.
Returns the accumulated error lines and the final in-memory text. -/
def patchLoop (i : Nat) (text : List Char) : List Patch → List String × List Char
  | [] => ([], text)
  | p :: ps =>
    let count := pyCount text p.old.data
    if count = 0 then
      let (errs, final) := patchLoop (i + 1) text ps
      (("Patch " ++ toString i ++ ": `old` not found") :: errs, final)
    else if count > 1 then
      let (errs, final) := patchLoop (i + 1) text ps
      (("Patch " ++ toString i ++ ": `old` matches " ++ toString count ++
        " times (must be unique)") :: errs, final)
    else
      patchLoop (i + 1) (pyReplaceFirst text p.old.data p.new.data) ps

/-- The `_patch_file` helper of `agent.py`: read the file, run the patch
loop over the in-memory text, and write the result back only when no patch
produced an error; otherwise report all error lines and leave the file
untouched. -/
def patchFile (env : Env) (path : String) (patches : List Patch) : Env × String :=
  match env.fs.read path with
  | none => (env, "Error reading file: (no such file)")
  | some text =>
    let (errs, final) := patchLoop 0 text.data patches
    if errs ≠ [] then
      (env, "Patch failed:\n" ++ String.intercalate "\n" errs)
    else if env.writeOk path then
      ({ env with fs := env.fs.write path ⟨final⟩ },
       "Patched " ++ toString patches.length ++ " location(s) in " ++ path)
    else (env, "Error writing file: (disk error)")

/-- The `_patch_file` loop over raw JSON patch entries, with Python's
dynamic typing explicit: a non-dict entry raises `AttributeError` at
`p.get`; a non-string `old` raises `TypeError` at `text.count`; a
non-string `new` raises `TypeError` at `text.replace` — which is reached
only when the count is exactly 1. -/
def patchLoopDyn (i : Nat) (text : List Char) : List JVal →
    Except PyErr (List String × List Char)
  | [] => Except.ok ([], text)
  | x :: xs =>
    match x with
    | JVal.jobj fields =>
      match pyStrArg (Args.getD fields "old" (JVal.jstr "")) with
      | Except.error e => Except.error e
      | Except.ok old =>
        let count := pyCount text old.data
        if count = 0 then
          match patchLoopDyn (i + 1) text xs with
          | Except.error e => Except.error e
          | Except.ok r =>
            Except.ok (("Patch " ++ toString i ++ ": `old` not found") :: r.1, r.2)
        else if count > 1 then
          match patchLoopDyn (i + 1) text xs with
          | Except.error e => Except.error e
          | Except.ok r =>
            Except.ok (("Patch " ++ toString i ++ ": `old` matches " ++ toString count ++
              " times (must be unique)") :: r.1, r.2)
        else
          match pyStrArg (Args.getD fields "new" (JVal.jstr "")) with
          | Except.error e => Except.error e
          | Except.ok new => patchLoopDyn (i + 1) (pyReplaceFirst text old.data new.data) xs
    | _ => Except.error PyErr.attributeError

/-- Dynamically-typed `_patch_file` as reached from `_run_tool`: the file
read happens first (a read failure returns before any patch is examined);
iterating a non-sequence `patches` raises `TypeError`; iterating a
non-empty string or dict yields strings whose `.get` raises
`AttributeError` (their empty counterparts iterate zero times, so the
unchanged text is written back and `Patched 0 location(s)` reported). -/
def patchFileDyn (env : Env) (path : String) (patches : JVal) :
    Except PyErr (Env × String) :=
  match env.fs.read path with
  | none => Except.ok (env, "Error reading file: (no such file)")
  | some text =>
    match patches with
    | JVal.jarr xs =>
      match patchLoopDyn 0 text.data xs with
      | Except.error e => Except.error e
      | Except.ok r =>
        if r.1 ≠ [] then
          Except.ok (env, "Patch failed:\n" ++ String.intercalate "\n" r.1)
        else if env.writeOk path then
          Except.ok ({ env with fs := env.fs.write path ⟨r.2⟩ },
            "Patched " ++ toString xs.length ++ " location(s) in " ++ path)
        else Except.ok (env, "Error writing file: (disk error)")
    | JVal.jstr "" =>
      if env.writeOk path then
        Except.ok ({ env with fs := env.fs.write path text },
          "Patched 0 location(s) in " ++ path)
      else Except.ok (env, "Error writing file: (disk error)")
    | JVal.jobj [] =>
      if env.writeOk path then
        Except.ok ({ env with fs := env.fs.write path text },
          "Patched 0 location(s) in " ++ path)
      else Except.ok (env, "Error writing file: (disk error)")
    | JVal.jstr _ => Except.error PyErr.attributeError
    | JVal.jobj (_ :: _) => Except.error PyErr.attributeError
    | _ => Except.error PyErr.typeError

/-- Core of `_edit_file` on raw `old`/`new` values after the read: the
count and its checks run before `new` is ever touched, so a non-string
`new` raises only when the single replacement is actually performed. -/
def editCoreDyn (env : Env) (path text : String) (oldv newv : JVal) :
    Except PyErr (Env × String) :=
  match pyStrArg oldv with
  | Except.error e => Except.error e
  | Except.ok old =>
    let count := pyCount text.data old.data
    if count = 0 then Except.ok (env, "Error: `old` not found in file")
    else if count > 1 then
      Except.ok (env, "Error: `old` matches " ++ toString count ++ " times (must be unique)")
    else
      match pyStrArg newv with
      | Except.error e => Except.error e
      | Except.ok new =>
        if env.writeOk path then
          Except.ok ({ env with fs := env.fs.write path ⟨pyReplaceFirst text.data old.data new.data⟩ },
            "Edited " ++ path)
        else Except.ok (env, "Error writing file: (disk error)")

/-- Dynamically-typed `_edit_file` as reached from `run_tool`: the read
happens first, then `text.count(old)` / `text.replace(old, new, 1)` raise
`TypeError` at their respective call sites if `old` / `new` is not a
string. -/
def editFileDyn (env : Env) (path : String) (old new : JVal) :
    Except PyErr (Env × String) :=
  match env.fs.read path with
  | none => Except.ok (env, "Error reading file: (no such file)")
  | some text => editCoreDyn env path text old new

/-! ## Memory store -/

/-- `MemoryStore.append` of `session.py`: concatenate the trimmed new
content to the right-trimmed existing blob, separated by a blank line, with
a trailing newline. -/
def memAppend (mem content : String) : String :=
  let existing := String.mk (stripRight mem.data)
  (if existing = "" then pyStrip content else existing ++ "\n\n" ++ pyStrip content) ++ "\n"

/-! ## Web tools -/

/-- Rendering of an exception in an f-string `f"Error: {e}"`. -/
def pyErrMsg : PyErr → String
  | PyErr.typeError => "(TypeError)"
  | PyErr.valueError => "(ValueError)"
  | PyErr.attributeError => "(AttributeError)"
  | PyErr.indexError => "(IndexError)"
  | PyErr.osError => "(OSError)"

/-- Python slice `s[:m]` including negative `m` (counted from the end,
clamped at zero). -/
def pySliceTo (s : List Char) (m : Int) : List Char :=
  s.take (if m ≥ 0 then m else (s.length : Int) + m).toNat

/-- Lines produced for one search result (1-based index, title/url line,
then the description line when the description is truthy). -/
def formatSearchItem (i : Nat) (it : SearchItem) : List String :=
  (toString i ++ ". " ++ it.title ++ "\n   " ++ it.url) ::
    (if it.desc ≠ "" then ["   " ++ it.desc] else [])

/-- Result formatting of `_web_search`: the empty-result message, or a
header line followed by the enumerated items of `results[:n]`. -/
def formatSearch (query : JVal) (n : Int) (results : List SearchItem) : String :=
  match results with
  | [] => "No results for: " ++ pyStr query
  | _ =>
    let taken := results.take n.toNat
    let lines := ("Search results for: " ++ pyStr query ++ "\n") ::
      (taken.enum.map (fun p => formatSearchItem (p.1 + 1) p.2)).flatten
    String.intercalate "\n" lines

/-- The `_web_search` helper: a missing API key short-circuits to an error
string before the count is touched; then `min(max(count, 1), 10)` raises on
a non-numeric count (it is evaluated outside the `try`), and every network
or decoding failure inside the `try` becomes an `Error:` string. -/
def webSearch (env : Env) (query count : JVal) : Except PyErr String :=
  if env.braveApiKey = "" then
    Except.ok "Error: Brave Search API key not configured."
  else
    match pyCmpInt count with
    | Except.error e => Except.error e
    | Except.ok c =>
      let n := min (max c 1) 10
      match env.searchRes query n with
      | Except.error e => Except.ok ("Error: " ++ e)
      | Except.ok results => Except.ok (formatSearch query n results)

/-- The `_web_fetch` helper: its whole body sits inside one
`try/except Exception`, so it is total — every failure, including an
ill-typed `max_chars` at the truncation comparison, becomes an `Error:`
string. -/
def webFetch (env : Env) (url maxChars : JVal) : String :=
  match env.fetchRes url with
  | Except.error e => "Error: " ++ e
  | Except.ok raw =>
    let text := env.stripHtml raw
    match pyCmpInt maxChars with
    | Except.error e => "Error: " ++ pyErrMsg e
    | Except.ok m =>
      if (text.length : Int) > m then
        String.mk (pySliceTo text.data m) ++ "\n\n[truncated, " ++
          toString raw.length ++ " chars total]"
      else text

/-! ## Tool executors

`_run_tool` of `agent.py` (lines 147-201) and `run_tool` of `tools.py`
(lines 187-247): the same dispatch duplicated in the source, differing in
the `patch_file` versus `edit_file` branch.  The `Except PyErr` layer
records exactly which sub-expressions sit outside a `try` and can therefore
propagate an exception to the caller. -/

/-- Shell-branch result formatting:
`(r.stdout + r.stderr).strip()[:8000] or "(no output)"`. -/
def shellResult (out err : String) : String :=
  let s := String.mk ((pyStripList (out ++ err).data).take 8000)
  if s = "" then "(no output)" else s

/-- The `shell` branch shared by both executors: `int(args.get("timeout",
30))` is evaluated before the `try`, so its failure propagates; everything
else is caught. -/
def shellBranch (env : Env) (args : Args) : Except PyErr (Env × String × Bool) :=
  match pyInt (args.getD "timeout" (JVal.jint 30)) with
  | Except.error e => Except.error e
  | Except.ok timeout =>
    match env.shellOut (args.getD "cmd" (JVal.jstr "")) timeout with
    | ShellOutcome.completed out err => Except.ok (env, shellResult out err, false)
    | ShellOutcome.timedOut =>
      Except.ok (env, "Error: timed out after " ++ toString timeout ++ "s", false)
    | ShellOutcome.exc msg => Except.ok (env, "Error: " ++ msg, false)

/-- The `read_file` branch: path resolution and the read both sit inside
the `try`, so even an ill-typed path becomes an error string. -/
def readFileBranch (env : Env) (args : Args) : Except PyErr (Env × String × Bool) :=
  match pyPath (args.getD "path" (JVal.jstr "")) with
  | Except.error e => Except.ok (env, "Error: " ++ pyErrMsg e, false)
  | Except.ok p =>
    match env.fs.read (resolvePath env.workspace p) with
    | none => Except.ok (env, "Error: (no such file)", false)
    | some t => Except.ok (env, t, false)

/-- The `write_file` branch: `p = resolve(args.get("path", ""))` sits
outside the `try` (an ill-typed path propagates); the directory creation,
an ill-typed content and the write are caught. -/
def writeFileBranch (env : Env) (args : Args) : Except PyErr (Env × String × Bool) :=
  match pyPath (args.getD "path" (JVal.jstr "")) with
  | Except.error e => Except.error e
  | Except.ok p =>
    let rp := resolvePath env.workspace p
    match args.getD "content" (JVal.jstr "") with
    | JVal.jstr c =>
      if env.writeOk rp then
        Except.ok ({ env with fs := env.fs.write rp c }, "Written to " ++ rp, false)
      else Except.ok (env, "Error: (disk error)", false)
    | _ => Except.ok (env, "Error: " ++ pyErrMsg PyErr.typeError, false)

/-- The `save_memory` branch: `.strip()` on a non-string content raises
(uncaught); a blank content is a silent no-op that never touches disk.  A
non-blank content runs `memory.append(c)` outside any `try`: the append
reads the existing blob and rewrites the whole file, so a failure of either
memory-file operation raises `OSError` through the executor. -/
def saveMemoryBranch (env : Env) (args : Args) : Except PyErr (Env × String × Bool) :=
  match pyStrAttr (args.getD "content" (JVal.jstr "")) with
  | Except.error e => Except.error e
  | Except.ok c =>
    if pyStrip c ≠ "" then
      if env.memLoadOk && env.memWriteOk then
        Except.ok ({ env with memory := memAppend env.memory (pyStrip c) }, "Memory saved.", false)
      else Except.error PyErr.osError
    else Except.ok (env, "Memory saved.", false)

/-- The `_run_tool` executor of `agent.py`.  Returns the updated
environment, the textual result and the restart flag, or the Python
exception that escapes the function. -/
def runToolAgent (env : Env) (name : String) (args : Args) :
    Except PyErr (Env × String × Bool) :=
  if name = "shell" then shellBranch env args
  else if name = "read_file" then readFileBranch env args
  else if name = "write_file" then writeFileBranch env args
  else if name = "patch_file" then
    match pyPath (args.getD "path" (JVal.jstr "")) with
    | Except.error e => Except.error e
    | Except.ok p =>
      match patchFileDyn env (resolvePath env.workspace p)
          (args.getD "patches" (JVal.jarr [])) with
      | Except.error e => Except.error e
      | Except.ok r => Except.ok (r.1, r.2, false)
  else if name = "save_memory" then saveMemoryBranch env args
  else if name = "recall_memory" then
    if env.memLoadOk then
      Except.ok (env, (if env.memory = "" then "(no memory yet)" else env.memory), false)
    else Except.error PyErr.osError
  else if name = "restart_self" then
    Except.ok (env, "Restarting now...", true)
  else if name = "web_search" then
    match webSearch env (args.getD "query" (JVal.jstr "")) (args.getD "count" (JVal.jint 5)) with
    | Except.error e => Except.error e
    | Except.ok r => Except.ok (env, r, false)
  else if name = "web_fetch" then
    Except.ok (env,
      webFetch env (args.getD "url" (JVal.jstr "")) (args.getD "max_chars" (JVal.jint 8000)),
      false)
  else
    Except.ok (env, "Unknown tool: " ++ name, false)

/-- The `run_tool` executor of `tools.py`: identical dispatch except that
the file-editing tool is the single-pair `edit_file` (whose path
resolution also sits outside any `try`). -/
def runToolTools (env : Env) (name : String) (args : Args) :
    Except PyErr (Env × String × Bool) :=
  if name = "shell" then shellBranch env args
  else if name = "read_file" then readFileBranch env args
  else if name = "write_file" then writeFileBranch env args
  else if name = "edit_file" then
    match pyPath (args.getD "path" (JVal.jstr "")) with
    | Except.error e => Except.error e
    | Except.ok p =>
      match editFileDyn env (resolvePath env.workspace p)
          (args.getD "old" (JVal.jstr "")) (args.getD "new" (JVal.jstr "")) with
      | Except.error e => Except.error e
      | Except.ok r => Except.ok (r.1, r.2, false)
  else if name = "save_memory" then saveMemoryBranch env args
  else if name = "recall_memory" then
    if env.memLoadOk then
      Except.ok (env, (if env.memory = "" then "(no memory yet)" else env.memory), false)
    else Except.error PyErr.osError
  else if name = "restart_self" then
    Except.ok (env, "Restarting now...", true)
  else if name = "web_search" then
    match webSearch env (args.getD "query" (JVal.jstr "")) (args.getD "count" (JVal.jint 5)) with
    | Except.error e => Except.error e
    | Except.ok r => Except.ok (env, r, false)
  else if name = "web_fetch" then
    Except.ok (env,
      webFetch env (args.getD "url" (JVal.jstr "")) (args.getD "max_chars" (JVal.jint 8000)),
      false)
  else
    Except.ok (env, "Unknown tool: " ++ name, false)

/-! ## LLM client (`llm.py`)

The OpenAI SDK response is modelled structurally (`choices`, `message`,
`tool_calls`, `finish_reason`), and `json.loads` is an uninterpreted parser
parameter `parse` whose failures stand for `json.JSONDecodeError`. -/

/-- A raw tool call as delivered by the completions SDK. -/
structure RawToolCall where
  id : String
  name : String
  arguments : String

/-- The assistant message inside a raw choice. -/
structure RawMessage where
  content : Option String
  tool_calls : Option (List RawToolCall)

/-- One element of `resp.choices`. -/
structure RawChoice where
  message : RawMessage
  finish_reason : Option String

/-- A raw completions response. -/
structure RawResponse where
  choices : List RawChoice

/-- A normalized tool call (`ToolCall` dataclass of `llm.py`): the decoded
`arguments` value is whatever `json.loads` produced, or the empty mapping
when decoding failed. -/
structure ToolCall where
  id : String
  name : String
  arguments : JVal

/-- The normalized `LLMResponse` dataclass of `llm.py`. -/
structure LLMResponse where
  content : Option String
  tool_calls : List ToolCall
  finish_reason : String

/-- Decoding of `json.loads(tc.function.arguments or "{}")` with
`json.JSONDecodeError` mapped to the empty mapping (lines 80-84 of
`llm.py`). -/
def decodeToolArgs (parse : String → Except String JVal) (rawArgs : String) : JVal :=
  let s := if rawArgs = "" then "\x7b\x7d" else rawArgs
  match parse s with
  | Except.ok v => v
  | Except.error _ => JVal.jobj []

/-- Normalization of one raw tool call. -/
def mkToolCall (parse : String → Except String JVal) (tc : RawToolCall) : ToolCall :=
  ⟨tc.id, tc.name, decodeToolArgs parse tc.arguments⟩

/-- The `LLMProvider.chat` method of `llm.py`, with the network round trip
abstracted to its outcome: an exception from
`client.chat.completions.create` (caught, becoming a synthetic `error`
response) or a raw response.  `resp.choices[0]` sits outside the `try` and
raises `IndexError` when `choices` is empty. -/
def chat (parse : String → Except String JVal) (outcome : Except String RawResponse) :
    Except PyErr LLMResponse :=
  match outcome with
  | Except.error e =>
    Except.ok { content := some ("Error: " ++ e), tool_calls := [], finish_reason := "error" }
  | Except.ok resp =>
    match resp.choices with
    | [] => Except.error PyErr.indexError
    | choice :: _ =>
      let msg := choice.message
      Except.ok
        { content := some (msg.content.getD "")
          tool_calls := (msg.tool_calls.getD []).map (mkToolCall parse)
          finish_reason := choice.finish_reason.getD "stop" }

/-! ## Session store (`session.py`) -/

/-- A message in the replay projection (`_KEEP` fields only): role,
content, serialized tool calls, tool-result linkage. -/
structure Msg where
  role : String
  content : String
  tool_calls : List ToolCall
  tool_call_id : Option String
  name : Option String

/-- A persisted session record: a message plus the timestamp stamped by
`save_turn` (the only non-`_KEEP` bookkeeping field in the source). -/
structure SessionMsg where
  msg : Msg
  ts : String

/-- One conversation's state: key, backing file path, the full ordered
message sequence and the consolidation watermark. -/
structure Session where
  key : String
  path : String
  messages : List SessionMsg
  last_consolidated : Nat

/-- The `for`/`break` scan of `get_history`: the suffix starting at the
first message with role `user`, if any. -/
def firstUserSuffix : List SessionMsg → Option (List SessionMsg)
  | [] => none
  | m :: t => if m.msg.role = "user" then some (m :: t) else firstUserSuffix t

/-- `Session.get_history` (lines 67-74 of `session.py`): the suffix of
messages from `last_consolidated` onward, trimmed forward to the first
`user` message when one exists — and returned untrimmed when none exists —
projected down to the `_KEEP` fields. -/
def getHistory (s : Session) : List Msg :=
  let tail := s.messages.drop s.last_consolidated
  let trimmed := (firstUserSuffix tail).getD tail
  trimmed.map (fun m => m.msg)

/-- `Session.save_turn`: append every message of the turn, stamped with the
current time, to the session's sequence (the JSONL append writes the same
records durably). -/
def saveTurn (s : Session) (now : String) (msgs : List Msg) : Session :=
  { s with messages := s.messages ++ msgs.map (fun m => ⟨m, now⟩) }

/-- Key sanitization of `SessionManager.get`:
`key.replace(":", "_").replace("/", "_")` — for single-character patterns
`str.replace` is the characterwise map. -/
def sanitizeKey (key : String) : String :=
  String.mk ((key.data.map (fun c => if c = ':' then '_' else c)).map
    (fun c => if c = '/' then '_' else c))

/-- The backing storage path `SESSIONS_DIR / f"{safe}.jsonl"` derived from
a conversation key (the sessions directory is rendered as a fixed string
prefix). -/
def sessionPath (key : String) : String :=
  "sessions/" ++ sanitizeKey key ++ ".jsonl"

/-- The in-memory session registry of `SessionManager`. -/
abbrev Registry : Type := List (String × Session)

/-- `SessionManager.get`: return the registered session for `key`, or
construct and register a fresh one backed by the key-derived path. -/
def managerGet (reg : Registry) (key : String) : Session × Registry :=
  match List.lookup key reg with
  | some s => (s, reg)
  | none =>
    let s : Session := ⟨key, sessionPath key, [], 0⟩
    (s, (key, s) :: reg)

/-! ## Agent loop (`AgentLoop.run`, agent.py lines 278-330)

The LLM client is abstracted as a total oracle from the current message
list to a normalized response, and tool execution as a total oracle from a
tool call to `(result, should_restart)` — per `_run_tool`'s contract for
schema-typed arguments.  (If either raised, `run` would terminate with that
exception before reaching `save_turn`, and in particular would never run
the deferred restart.)  The observable actions of a turn are recorded as an
event trace. -/

/-- Observable actions of one `run` invocation, in order. -/
inductive Event where
  | callLLM
  | toolExec (name : String)
  | saveTurn
  | reply (text : String)
  | restart
deriving DecidableEq, Repr

/-- Mutable state of the round loop. -/
structure LoopState where
  messages : List Msg
  turnMsgs : List Msg
  finalReply : String
  pendingRestart : Bool
  events : List Event

/-- The assistant message appended after each LLM call (content defaulted
to the empty string, serialized tool calls attached when present). -/
def mkAsstMsg (resp : LLMResponse) : Msg :=
  { role := "assistant", content := resp.content.getD ""
    tool_calls := resp.tool_calls, tool_call_id := none, name := none }

/-- The `tool`-role message recording one tool result, echoing the call id
and tool name. -/
def mkToolMsg (tc : ToolCall) (result : String) : Msg :=
  { role := "tool", content := result, tool_calls := []
    tool_call_id := some tc.id, name := some tc.name }

/-- Sequential execution of one round's tool calls, in emitted order:
append each result message to both buffers, record the event, and latch the
restart flag. -/
def execRound (execTool : ToolCall → String × Bool) (tcs : List ToolCall)
    (s : LoopState) : LoopState :=
  tcs.foldl
    (fun s tc =>
      let r := execTool tc
      { s with
        pendingRestart := s.pendingRestart || r.2
        messages := s.messages ++ [mkToolMsg tc r.1]
        turnMsgs := s.turnMsgs ++ [mkToolMsg tc r.1]
        events := s.events ++ [Event.toolExec tc.name] })
    s

/-- Outcome of one iteration of the round loop: `halt` is the source's
`break` (or falling through after the error/no-tools branches), `again`
continues with the next round. -/
inductive RoundOut where
  | halt (s : LoopState)
  | again (s : LoopState)

/-- One iteration of the `for round_num in range(max_tool_rounds)` body
(agent.py lines 287-320): call the LLM; on `error` stop with the error
text as reply; otherwise append the assistant message to both buffers; with
no tool calls stop with the content as reply; otherwise execute the tool
calls in order and, when this was the last permitted round
(`round_num == max_tool_rounds - 1`), override the final reply with the
fixed notice. -/
def roundStep (provider : List Msg → LLMResponse) (execTool : ToolCall → String × Bool)
    (isLast : Bool) (s : LoopState) : RoundOut :=
  let resp := provider s.messages
  let s := { s with events := s.events ++ [Event.callLLM] }
  if resp.finish_reason = "error" then
    RoundOut.halt { s with finalReply := pyOrStr resp.content "LLM error." }
  else
    let asst := mkAsstMsg resp
    let s := { s with
      messages := s.messages ++ [asst], turnMsgs := s.turnMsgs ++ [asst] }
    match resp.tool_calls with
    | [] => RoundOut.halt { s with finalReply := resp.content.getD "" }
    | _ :: _ =>
      let s := execRound execTool resp.tool_calls s
      RoundOut.again
        (if isLast then { s with finalReply := "Reached maximum tool call rounds." } else s)

/-- The bounded round loop, by remaining rounds (`remaining = 1` is the
last permitted round). -/
def loopStep (provider : List Msg → LLMResponse) (execTool : ToolCall → String × Bool) :
    Nat → LoopState → LoopState
  | 0, s => s
  | remaining + 1, s =>
    match roundStep provider execTool (remaining == 0) s with
    | RoundOut.halt s1 => s1
    | RoundOut.again s1 => loopStep provider execTool remaining s1

/-- Result of one turn: the returned reply plus the saved turn buffer and
the event trace. -/
structure RunResult where
  finalReply : String
  turnMsgs : List Msg
  messages : List Msg
  pendingRestart : Bool
  events : List Event

/-- `AgentLoop.run`: run the bounded round loop from the assembled message
list, then persist the turn buffer, then deliver a non-empty final reply
through the callback when one was supplied, and only then perform a pending
process restart. -/
def run (provider : List Msg → LLMResponse) (execTool : ToolCall → String × Bool)
    (maxRounds : Nat) (initialMessages : List Msg) (userMsg : Msg)
    (hasCallback : Bool) : RunResult :=
  let s0 : LoopState :=
    { messages := initialMessages, turnMsgs := [userMsg]
      finalReply := "", pendingRestart := false, events := [] }
  let s := loopStep provider execTool maxRounds s0
  let evs := s.events ++ [Event.saveTurn]
  let evs := if s.finalReply ≠ "" ∧ hasCallback then evs ++ [Event.reply s.finalReply] else evs
  let evs := if s.pendingRestart then evs ++ [Event.restart] else evs
  { finalReply := s.finalReply, turnMsgs := s.turnMsgs, messages := s.messages
    pendingRestart := s.pendingRestart, events := evs }

/-! ## Specification-side definitions

Independent restatements used to compare the code against claim wording. -/

/-- Progressive validity (from the amended wording of the multi-patch
claim): each patch's `old` occurs exactly once in the text with all earlier
patches already applied. -/
def progressiveOk (text : List Char) : List Patch → Prop
  | [] => True
  | p :: ps =>
    pyCount text p.old.data = 1 ∧
      progressiveOk (pyReplaceFirst text p.old.data p.new.data) ps

/-- Sequential application of all patches, first occurrence each. -/
def progressiveApply (text : List Char) : List Patch → List Char
  | [] => text
  | p :: ps => progressiveApply (pyReplaceFirst text p.old.data p.new.data) ps

/-- Whether an `Except` computation succeeded. -/
def exceptOk {ε α : Type} : Except ε α → Bool
  | Except.ok _ => true
  | Except.error _ => false

/-- Whether a JSON value is a string (the declared type of `path`, `old`,
`new`, `content`, `cmd`, `query`, `url` parameters). -/
def strTyped (v : JVal) : Bool :=
  match v with
  | JVal.jstr _ => true
  | _ => false

/-- Whether one patch entry conforms to the schema: an object whose `old`
and `new` fields, when present, are strings. -/
def patchEntryTyped (x : JVal) : Bool :=
  match x with
  | JVal.jobj fields =>
    strTyped (Args.getD fields "old" (JVal.jstr "")) &&
      strTyped (Args.getD fields "new" (JVal.jstr ""))
  | _ => false

/-- Whether a `patches` value conforms to the schema: an array of
schema-conformant patch objects. -/
def patchesTyped (v : JVal) : Bool :=
  match v with
  | JVal.jarr xs => xs.all patchEntryTyped
  | _ => false

/-- Schema-conformant argument typing for a tool invocation: sufficient
conditions (per the tool schema's declared parameter types) under which no
implicit conversion performed outside a `try` in `_run_tool` / `run_tool`
can raise.  String-typed parameters may also simply be absent, since the
`.get` defaults are strings. -/
def argsOk (name : String) (args : Args) : Prop :=
  (name = "shell" → exceptOk (pyInt (args.getD "timeout" (JVal.jint 30))) = true) ∧
  (name = "write_file" → strTyped (args.getD "path" (JVal.jstr "")) = true) ∧
  (name = "patch_file" →
    strTyped (args.getD "path" (JVal.jstr "")) = true ∧
    patchesTyped (args.getD "patches" (JVal.jarr [])) = true) ∧
  (name = "edit_file" →
    strTyped (args.getD "path" (JVal.jstr "")) = true ∧
    strTyped (args.getD "old" (JVal.jstr "")) = true ∧
    strTyped (args.getD "new" (JVal.jstr "")) = true) ∧
  (name = "save_memory" → strTyped (args.getD "content" (JVal.jstr "")) = true) ∧
  (name = "web_search" → exceptOk (pyCmpInt (args.getD "count" (JVal.jint 5))) = true)

/-! ## Concrete fixtures for witnesses and counterexamples -/

/-- A benign environment: empty workspace, no memory, all disk writes
succeed, network always fails (any oracle works for the theorems below). -/
def env0 : Env :=
  { fs := [], memory := "", memLoadOk := true, memWriteOk := true
    workspace := "/ws", braveApiKey := ""
    shellOut := fun _ _ => ShellOutcome.completed "" ""
    writeOk := fun _ => true
    searchRes := fun _ _ => Except.error "network unreachable"
    fetchRes := fun _ => Except.error "network unreachable"
    stripHtml := fun s => s }

/-- Environment whose memory-store file I/O fails (disk error on the
`MEMORY.md` read and write). -/
def envMemFail : Env := { env0 with memLoadOk := false, memWriteOk := false }

/-- Environment with one file `/ws/f.txt` containing `ab`. -/
def envAB : Env := { env0 with fs := [("/ws/f.txt", "ab")] }

/-- Environment with one file `/ws/f.txt` containing `aba`. -/
def envABA : Env := { env0 with fs := [("/ws/f.txt", "aba")] }

/-- A session whose unconsolidated suffix is a lone assistant message: the
watermark (loaded from the persisted meta record) sits past the last user
message. -/
def sessionNoUser : Session :=
  ⟨"feishu:oc_1", sessionPath "feishu:oc_1",
    [⟨⟨"user", "hi", [], none, none⟩, "t0"⟩,
     ⟨⟨"assistant", "hello", [], none, none⟩, "t0"⟩], 1⟩

/-- A session whose unconsolidated suffix starts with a tool-result remnant
followed by a user message. -/
def sessionWithUser : Session :=
  ⟨"feishu:oc_2", sessionPath "feishu:oc_2",
    [⟨⟨"assistant", "a0", [], none, none⟩, "t0"⟩,
     ⟨⟨"tool", "r0", [], some "id0", some "shell"⟩, "t1"⟩,
     ⟨⟨"user", "next", [], none, none⟩, "t1"⟩,
     ⟨⟨"assistant", "a1", [], none, none⟩, "t1"⟩], 1⟩

/-- The user message of the witness turns. -/
def userMsgW : Msg := ⟨"user", "please restart yourself", [], none, none⟩

/-- A response that always requests one shell tool call. -/
def respToolW : LLMResponse :=
  ⟨some "working on it", [⟨"call_1", "shell", JVal.jobj [("cmd", JVal.jstr "ls")]⟩], "tool_calls"⟩

/-- A response that requests a `restart_self` tool call. -/
def respRestartW : LLMResponse :=
  ⟨some "", [⟨"call_2", "restart_self", JVal.jobj []⟩], "tool_calls"⟩

/-- A final plain-text response. -/
def respDoneW : LLMResponse := ⟨some "Done, restarting!", [], "stop"⟩

/-- A failing first-round response, as `chat` produces after a connection
error. -/
def respErrW : LLMResponse := ⟨some "Error: Connection error.", [], "error"⟩

/-- Provider oracle for the restart scenario: the restart round-trip on the
initial one-message list, then the final text reply. -/
def providerRestartW : List Msg → LLMResponse :=
  fun msgs => if msgs.length ≤ 1 then respRestartW else respDoneW

/-- Tool oracle mirroring `_run_tool` on the calls the scenarios make. -/
def execToolW : ToolCall → String × Bool :=
  fun tc => if tc.name = "restart_self" then ("Restarting now...", true) else ("(no output)", false)

/-- A toy JSON parser for witnesses: accepts only the empty-object payload,
rejecting everything else (the theorems hold for every parser). -/
def parseW : String → Except String JVal :=
  fun s => if s = "\x7b\x7d" then Except.ok (JVal.jobj [])
    else Except.error "Expecting value: line 1 column 1 (char 0)"

/-- A malformed raw tool call payload. -/
def rawToolCallW : RawToolCall := ⟨"call_9", "shell", "not a json payload"⟩

/-- A raw choice carrying the malformed tool call. -/
def rawChoiceW : RawChoice := ⟨⟨some "", some [rawToolCallW]⟩, some "tool_calls"⟩

/-! ## Helper lemmas -/

theorem exceptOk_exists {ε α : Type} (e : Except ε α) (h : exceptOk e = true) :
    ∃ a, e = Except.ok a := by
  cases e with
  | ok a => exact ⟨a, rfl⟩
  | error _ => simp [exceptOk] at h

theorem FS.read_write_self (fs : FS) (p c : String) :
    (fs.write p c).read p = some c := by
  simp [FS.read, FS.write, List.lookup]

theorem FS.read_write_ne (fs : FS) (p c q : String) (hqp : q ≠ p) :
    (fs.write p c).read q = fs.read q := by
  have hqp' : (q == p) = false := by simp [hqp]
  simp [FS.read, FS.write, List.lookup, hqp']

theorem countAux_decomp (pat new : List Char) :
    ∀ fuel text, text.length ≤ fuel → 1 ≤ countAux pat fuel text →
      ∃ p s, text = p ++ pat ++ s ∧ replaceFirstNE pat new text = p ++ new ++ s := by
  intro fuel
  induction fuel with
  | zero =>
    intro text hlen hcnt
    have : text = [] := List.length_eq_zero.mp (Nat.le_zero.mp hlen)
    subst this
    simp [countAux] at hcnt
  | succ f ih =>
    intro text hlen hcnt
    match text with
    | [] => simp [countAux] at hcnt
    | c :: t =>
      by_cases hpre : pat.isPrefixOf (c :: t)
      · obtain ⟨s, hs⟩ := List.isPrefixOf_iff_prefix.mp hpre
        refine ⟨[], s, by simp [← hs], ?_⟩
        simp only [replaceFirstNE, if_pos hpre, List.nil_append]
        rw [← hs, List.drop_left]
      · have hcnt' : 1 ≤ countAux pat f t := by
          simpa [countAux, hpre] using hcnt
        have hlen' : t.length ≤ f := by
          simpa using hlen
        obtain ⟨p, s, hts, hrep⟩ := ih t hlen' hcnt'
        exact ⟨c :: p, s, by simp [hts],
          by simp [replaceFirstNE, hpre, hrep]⟩

theorem pyReplaceFirst_decomp (text pat new : List Char) (h : 1 ≤ pyCount text pat) :
    ∃ p s, text = p ++ pat ++ s ∧ pyReplaceFirst text pat new = p ++ new ++ s := by
  by_cases hp : pat = []
  · subst hp
    exact ⟨[], text, by simp, by simp [pyReplaceFirst]⟩
  · have h' : 1 ≤ countAux pat text.length text := by
      simpa [pyCount, hp] using h
    have := countAux_decomp pat new text.length text le_rfl h'
    simpa [pyReplaceFirst, hp] using this

theorem firstUserSuffix_head : ∀ (l r : List SessionMsg),
    firstUserSuffix l = some r → ∃ m t, r = m :: t ∧ m.msg.role = "user" := by
  intro l
  induction l with
  | nil => intro r h; simp [firstUserSuffix] at h
  | cons m t ih =>
    intro r h
    by_cases hm : m.msg.role = "user"
    · simp [firstUserSuffix, hm] at h
      exact ⟨m, t, h.symm, hm⟩
    · simp only [firstUserSuffix, if_neg hm] at h
      exact ih r h

theorem firstUserSuffix_isSome : ∀ (l : List SessionMsg),
    (∃ m ∈ l, m.msg.role = "user") → (firstUserSuffix l).isSome = true := by
  intro l
  induction l with
  | nil => rintro ⟨m, hm, _⟩; simp at hm
  | cons a t ih =>
    rintro ⟨m, hm, hrole⟩
    by_cases ha : a.msg.role = "user"
    · simp [firstUserSuffix, ha]
    · simp only [firstUserSuffix, if_neg ha, Option.isSome]
      rcases List.mem_cons.mp hm with h | h
      · exact absurd (h ▸ hrole) ha
      · have := ih ⟨m, h, hrole⟩
        cases hfs : firstUserSuffix t with
        | none => rw [hfs] at this; simp at this
        | some _ => rfl

theorem patchLoop_ok_iff : ∀ (ps : List Patch) (i : Nat) (text : List Char),
    ((patchLoop i text ps).1 = [] ↔ progressiveOk text ps) ∧
    (progressiveOk text ps → (patchLoop i text ps).2 = progressiveApply text ps) := by
  intro ps
  induction ps with
  | nil => intro i text; simp [patchLoop, progressiveOk, progressiveApply]
  | cons p ps ih =>
    intro i text
    by_cases h0 : pyCount text p.old.data = 0
    · constructor
      · simp [patchLoop, h0, progressiveOk]
      · rintro ⟨h1, -⟩; omega
    · by_cases h2 : pyCount text p.old.data > 1
      · constructor
        · simp only [patchLoop, if_neg h0, if_pos h2]
          simp [progressiveOk]
          omega
        · rintro ⟨h1, -⟩; omega
      · have h1 : pyCount text p.old.data = 1 := by omega
        have hloop : patchLoop i text (p :: ps) =
            patchLoop (i + 1) (pyReplaceFirst text p.old.data p.new.data) ps := by
          simp [patchLoop, h0, h1]
        constructor
        · rw [hloop]
          simp only [progressiveOk, h1, true_and]
          exact (ih (i + 1) (pyReplaceFirst text p.old.data p.new.data)).1
        · rintro ⟨-, hrec⟩
          rw [hloop]
          simp only [progressiveApply]
          exact (ih (i + 1) (pyReplaceFirst text p.old.data p.new.data)).2 hrec

theorem patchLoop_errs_shape : ∀ (ps : List Patch) (i : Nat) (text : List Char),
    ∀ e ∈ (patchLoop i text ps).1, ∃ j, i ≤ j ∧ j < i + ps.length ∧
      (e = "Patch " ++ toString j ++ ": `old` not found" ∨
       ∃ k, 2 ≤ k ∧ e = "Patch " ++ toString j ++ ": `old` matches " ++ toString k ++
         " times (must be unique)") := by
  intro ps
  induction ps with
  | nil => intro i text e he; simp [patchLoop] at he
  | cons p ps ih =>
    intro i text e he
    by_cases h0 : pyCount text p.old.data = 0
    · simp only [patchLoop, if_pos h0] at he
      rcases List.mem_cons.mp he with h | h
      · exact ⟨i, le_rfl, by simp, Or.inl h⟩
      · obtain ⟨j, hj1, hj2, hj3⟩ := ih (i + 1) text e h
        exact ⟨j, by omega, by simp only [List.length_cons]; omega, hj3⟩
    · by_cases h2 : pyCount text p.old.data > 1
      · simp only [patchLoop, if_neg h0, if_pos h2] at he
        rcases List.mem_cons.mp he with h | h
        · exact ⟨i, le_rfl, by simp, Or.inr ⟨pyCount text p.old.data, by omega, h⟩⟩
        · obtain ⟨j, hj1, hj2, hj3⟩ := ih (i + 1) text e h
          exact ⟨j, by omega, by simp only [List.length_cons]; omega, hj3⟩
      · have h1 : pyCount text p.old.data = 1 := by omega
        simp only [patchLoop, h0, h1] at he
        norm_num at he
        obtain ⟨j, hj1, hj2, hj3⟩ :=
          ih (i + 1) (pyReplaceFirst text p.old.data p.new.data) e he
        exact ⟨j, by omega, by simp only [List.length_cons]; omega, hj3⟩

theorem execRound_finalReply (execTool : ToolCall → String × Bool) :
    ∀ (tcs : List ToolCall) (s : LoopState),
      (execRound execTool tcs s).finalReply = s.finalReply := by
  intro tcs
  induction tcs with
  | nil => intro s; rfl
  | cons tc tcs ih => intro s; simpa [execRound, List.foldl] using ih _

theorem execRound_events (execTool : ToolCall → String × Bool) :
    ∀ (tcs : List ToolCall) (s : LoopState),
      (execRound execTool tcs s).events =
        s.events ++ tcs.map (fun tc => Event.toolExec tc.name) := by
  intro tcs
  induction tcs with
  | nil => intro s; simp [execRound]
  | cons tc tcs ih =>
    intro s
    simp only [execRound, List.foldl, List.map] at *
    rw [ih]
    simp

theorem roundStep_error (provider : List Msg → LLMResponse)
    (execTool : ToolCall → String × Bool) (isLast : Bool) (s : LoopState)
    (herr : (provider s.messages).finish_reason = "error") :
    roundStep provider execTool isLast s =
      RoundOut.halt { s with events := s.events ++ [Event.callLLM]
                             finalReply := pyOrStr (provider s.messages).content "LLM error." } := by
  simp [roundStep, herr]

theorem roundStep_noTools (provider : List Msg → LLMResponse)
    (execTool : ToolCall → String × Bool) (isLast : Bool) (s : LoopState)
    (herr : (provider s.messages).finish_reason ≠ "error")
    (htc : (provider s.messages).tool_calls = []) :
    roundStep provider execTool isLast s =
      RoundOut.halt
        { s with
          events := s.events ++ [Event.callLLM]
          messages := s.messages ++ [mkAsstMsg (provider s.messages)]
          turnMsgs := s.turnMsgs ++ [mkAsstMsg (provider s.messages)]
          finalReply := (provider s.messages).content.getD "" } := by
  simp [roundStep, herr, htc]

theorem roundStep_tools (provider : List Msg → LLMResponse)
    (execTool : ToolCall → String × Bool) (isLast : Bool) (s : LoopState)
    (herr : (provider s.messages).finish_reason ≠ "error")
    (htc : (provider s.messages).tool_calls ≠ []) :
    roundStep provider execTool isLast s =
      RoundOut.again
        (let s1 := execRound execTool (provider s.messages).tool_calls
          { s with
            events := s.events ++ [Event.callLLM]
            messages := s.messages ++ [mkAsstMsg (provider s.messages)]
            turnMsgs := s.turnMsgs ++ [mkAsstMsg (provider s.messages)] }
         if isLast then { s1 with finalReply := "Reached maximum tool call rounds." } else s1) := by
  obtain ⟨tc, tcs, hcons⟩ := List.exists_cons_of_ne_nil htc
  simp [roundStep, herr, hcons]

theorem loopStep_events (provider : List Msg → LLMResponse)
    (execTool : ToolCall → String × Bool) :
    ∀ (r : Nat) (s : LoopState), ∃ tail,
      (loopStep provider execTool r s).events = s.events ++ tail ∧
      ∀ e ∈ tail, e = Event.callLLM ∨ ∃ n, e = Event.toolExec n := by
  intro r
  induction r with
  | zero => intro s; exact ⟨[], by simp [loopStep], by simp⟩
  | succ r ih =>
    intro s
    by_cases herr : (provider s.messages).finish_reason = "error"
    · refine ⟨[Event.callLLM], ?_, by simp⟩
      simp [loopStep, roundStep_error provider execTool _ s herr]
    · cases htc : (provider s.messages).tool_calls with
      | nil =>
        refine ⟨[Event.callLLM], ?_, by simp⟩
        simp [loopStep, roundStep_noTools provider execTool _ s herr htc]
      | cons tc tcs =>
        have htc' : (provider s.messages).tool_calls ≠ [] := by simp [htc]
        set s2 : LoopState :=
          { s with
            events := s.events ++ [Event.callLLM]
            messages := s.messages ++ [mkAsstMsg (provider s.messages)]
            turnMsgs := s.turnMsgs ++ [mkAsstMsg (provider s.messages)] } with hs2
        set s3 : LoopState := execRound execTool (provider s.messages).tool_calls s2 with hs3
        set s4 : LoopState :=
          if (r == 0) = true then { s3 with finalReply := "Reached maximum tool call rounds." }
          else s3 with hs4
        have hstep : loopStep provider execTool (r + 1) s = loopStep provider execTool r s4 := by
          simp only [loopStep, roundStep_tools provider execTool (r == 0) s herr htc']
        have hs4ev : s4.events = s3.events := by
          rw [hs4]; split <;> rfl
        have hs3ev : s3.events = s.events ++ [Event.callLLM] ++
            ((provider s.messages).tool_calls.map (fun tc => Event.toolExec tc.name)) := by
          rw [hs3, execRound_events]
        obtain ⟨tail2, htail2, hmem2⟩ := ih s4
        refine ⟨[Event.callLLM] ++
          ((provider s.messages).tool_calls.map (fun tc => Event.toolExec tc.name)) ++ tail2,
          ?_, ?_⟩
        · rw [hstep, htail2, hs4ev, hs3ev]; simp
        · intro e he
          simp only [List.mem_append] at he
          rcases he with (he | he) | he
          · simp only [List.mem_singleton] at he; exact Or.inl he
          · right
            obtain ⟨a, -, ha⟩ := List.mem_map.mp he
            exact ⟨a.name, ha.symm⟩
          · exact hmem2 e he

theorem loopStep_notice (provider : List Msg → LLMResponse)
    (execTool : ToolCall → String × Bool)
    (hnoerr : ∀ msgs, (provider msgs).finish_reason ≠ "error")
    (htools : ∀ msgs, (provider msgs).tool_calls ≠ []) :
    ∀ (r : Nat) (s : LoopState), 1 ≤ r →
      (loopStep provider execTool r s).finalReply = "Reached maximum tool call rounds." := by
  intro r
  induction r with
  | zero => intro s h; omega
  | succ r ih =>
    intro s _
    have hstep : loopStep provider execTool (r + 1) s =
        loopStep provider execTool r
          (let s1 := execRound execTool (provider s.messages).tool_calls
            { s with
              events := s.events ++ [Event.callLLM]
              messages := s.messages ++ [mkAsstMsg (provider s.messages)]
              turnMsgs := s.turnMsgs ++ [mkAsstMsg (provider s.messages)] }
           if (r == 0) = true then
             { s1 with finalReply := "Reached maximum tool call rounds." }
           else s1) := by
      simp only [loopStep,
        roundStep_tools provider execTool (r == 0) s (hnoerr s.messages) (htools s.messages)]
    rw [hstep]
    by_cases hr : r = 0
    · subst hr
      simp [loopStep]
    · exact ih _ (by omega)

/-- C6: with round limit R at least 1 and a model that requests tool calls
in every round (and never errors), the final reply after round R is exactly
the fixed maximum-rounds notice, whatever text the model produced in that
last round; the loop terminates in this defined state rather than erroring. -/
theorem c6_round_limit_notice (provider : List Msg → LLMResponse)
    (execTool : ToolCall → String × Bool) (R : Nat) (initMsgs : List Msg)
    (userMsg : Msg) (cb : Bool) (hR : 1 ≤ R)
    (hnoerr : ∀ msgs, (provider msgs).finish_reason ≠ "error")
    (htools : ∀ msgs, (provider msgs).tool_calls ≠ []) :
    (run provider execTool R initMsgs userMsg cb).finalReply =
      "Reached maximum tool call rounds." := by
  simp only [run]
  exact loopStep_notice provider execTool hnoerr htools R _ hR

/-- Witness for C6 at round limit 2 with a model that always calls the
shell tool. -/
theorem c6_round_limit_notice_witness :
    (run (fun _ => respToolW) execToolW 2 [userMsgW] userMsgW true).finalReply =
      "Reached maximum tool call rounds." :=
  c6_round_limit_notice (fun _ => respToolW) execToolW 2 [userMsgW] userMsgW true
    (by decide) (fun _ => by simp [respToolW]) (fun _ => by simp [respToolW])

/-- C7: when the LLM call fails on the first round (`finish_reason` is
`error` with a non-empty error text), the loop returns that error text as
the final reply, makes no further LLM call (exactly one `callLLM` event),
signals no restart, and persists a turn containing only the user message —
no assistant message is appended. -/
theorem c7_llm_error_first_round (provider : List Msg → LLMResponse)
    (execTool : ToolCall → String × Bool) (R : Nat) (initMsgs : List Msg)
    (userMsg : Msg) (cb : Bool) (e : String) (hR : 1 ≤ R)
    (herr : (provider initMsgs).finish_reason = "error")
    (hcont : (provider initMsgs).content = some e) (hne : e ≠ "") :
    (run provider execTool R initMsgs userMsg cb).finalReply = e ∧
    (run provider execTool R initMsgs userMsg cb).turnMsgs = [userMsg] ∧
    (run provider execTool R initMsgs userMsg cb).pendingRestart = false ∧
    (run provider execTool R initMsgs userMsg cb).events =
      [Event.callLLM, Event.saveTurn] ++ (if cb then [Event.reply e] else []) := by
  cases R with
  | zero => omega
  | succ r =>
    have hre := roundStep_error provider execTool (r == 0)
      { messages := initMsgs, turnMsgs := [userMsg], finalReply := ""
        pendingRestart := false, events := [] } herr
    have h1 : loopStep provider execTool (r + 1)
        { messages := initMsgs, turnMsgs := [userMsg], finalReply := ""
          pendingRestart := false, events := [] } =
        { messages := initMsgs, turnMsgs := [userMsg]
          finalReply := pyOrStr (provider initMsgs).content "LLM error."
          pendingRestart := false, events := [Event.callLLM] } := by
      simp only [loopStep, hre]
      simp
    have he : pyOrStr (provider initMsgs).content "LLM error." = e := by
      rw [hcont]; simp [pyOrStr, hne]
    rw [he] at h1
    simp only [run, h1]
    cases cb <;> simp [hne]

/-- Witness for C7 with a connection-error response. -/
theorem c7_llm_error_first_round_witness :
    (run (fun _ => respErrW) execToolW 2 [userMsgW] userMsgW true).finalReply =
      "Error: Connection error." ∧
    (run (fun _ => respErrW) execToolW 2 [userMsgW] userMsgW true).turnMsgs = [userMsgW] ∧
    (run (fun _ => respErrW) execToolW 2 [userMsgW] userMsgW true).pendingRestart = false ∧
    (run (fun _ => respErrW) execToolW 2 [userMsgW] userMsgW true).events =
      [Event.callLLM, Event.saveTurn] ++ [Event.reply "Error: Connection error."] := by
  have h := c7_llm_error_first_round (fun _ => respErrW) execToolW 2 [userMsgW] userMsgW
    true "Error: Connection error." (by decide) rfl rfl (by decide)
  simpa using h

/-- C8: whenever a restart was signaled during the turn, the `restart`
event is the very last event of the turn: it happens after `save_turn`
persisted the whole turn and after any reply delivery through the
callback, so the user receives the text reply before the process
restarts. -/
theorem c8_restart_last (provider : List Msg → LLMResponse)
    (execTool : ToolCall → String × Bool) (R : Nat) (initMsgs : List Msg)
    (userMsg : Msg) (cb : Bool)
    (h : Event.restart ∈ (run provider execTool R initMsgs userMsg cb).events) :
    ∃ evs, (run provider execTool R initMsgs userMsg cb).events = evs ++ [Event.restart] ∧
      Event.restart ∉ evs ∧ Event.saveTurn ∈ evs ∧
      ∀ t, Event.reply t ∈ (run provider execTool R initMsgs userMsg cb).events →
        Event.reply t ∈ evs := by
  obtain ⟨tail, htail, hmem⟩ := loopStep_events provider execTool R
    { messages := initMsgs, turnMsgs := [userMsg], finalReply := ""
      pendingRestart := false, events := [] }
  simp only [List.nil_append] at htail
  set s := loopStep provider execTool R
    { messages := initMsgs, turnMsgs := [userMsg], finalReply := ""
      pendingRestart := false, events := [] } with hs
  have hrestart_tail : Event.restart ∉ tail := by
    intro hin; rcases hmem _ hin with h' | ⟨n, h'⟩ <;> simp at h'
  have hsave_tail : Event.saveTurn ∉ tail := by
    intro hin; rcases hmem _ hin with h' | ⟨n, h'⟩ <;> simp at h'
  have hreply_tail : ∀ t, Event.reply t ∉ tail := by
    intro t hin; rcases hmem _ hin with h' | ⟨n, h'⟩ <;> simp at h'
  have hrun : (run provider execTool R initMsgs userMsg cb).events =
      (if s.pendingRestart = true then
        (if s.finalReply ≠ "" ∧ cb = true then
          (s.events ++ [Event.saveTurn]) ++ [Event.reply s.finalReply]
         else s.events ++ [Event.saveTurn]) ++ [Event.restart]
       else
        (if s.finalReply ≠ "" ∧ cb = true then
          (s.events ++ [Event.saveTurn]) ++ [Event.reply s.finalReply]
         else s.events ++ [Event.saveTurn])) := rfl
  have hsub : ∀ e, e ∈ (if s.finalReply ≠ "" ∧ cb = true then
        (s.events ++ [Event.saveTurn]) ++ [Event.reply s.finalReply]
      else s.events ++ [Event.saveTurn]) →
      e ∈ tail ∨ e = Event.saveTurn ∨ ∃ t, e = Event.reply t := by
    intro e he
    split at he
    · rcases List.mem_append.mp he with he | he
      · rcases List.mem_append.mp he with he | he
        · exact Or.inl (htail ▸ he)
        · simp only [List.mem_singleton] at he; exact Or.inr (Or.inl he)
      · simp only [List.mem_singleton] at he; exact Or.inr (Or.inr ⟨_, he⟩)
    · rcases List.mem_append.mp he with he | he
      · exact Or.inl (htail ▸ he)
      · simp only [List.mem_singleton] at he; exact Or.inr (Or.inl he)
  rw [hrun] at h ⊢
  by_cases hpr : s.pendingRestart = true
  · rw [if_pos hpr] at h ⊢
    refine ⟨_, rfl, ?_, ?_, ?_⟩
    · intro hin
      rcases hsub _ hin with hin | hin | ⟨t, hin⟩
      · exact hrestart_tail hin
      · simp at hin
      · simp at hin
    · split <;> simp
    · intro t hin
      rcases List.mem_append.mp hin with hin | hin
      · exact hin
      · simp only [List.mem_singleton] at hin; simp at hin
  · rw [if_neg hpr] at h
    exfalso
    rcases hsub _ h with hin | hin | ⟨t, hin⟩
    · exact hrestart_tail hin
    · simp at hin
    · simp at hin

/-- Witness for C8: scenario E — the model calls `restart_self`, then
produces a final text reply; the trace ends save, reply, restart. -/
theorem c8_restart_last_witness :
    Event.restart ∈ (run providerRestartW execToolW 2 [userMsgW] userMsgW true).events ∧
    ∃ evs, (run providerRestartW execToolW 2 [userMsgW] userMsgW true).events =
        evs ++ [Event.restart] ∧
      Event.restart ∉ evs ∧ Event.saveTurn ∈ evs ∧
      ∀ t, Event.reply t ∈ (run providerRestartW execToolW 2 [userMsgW] userMsgW true).events →
        Event.reply t ∈ evs :=
  ⟨by decide, c8_restart_last providerRestartW execToolW 2 [userMsgW] userMsgW true (by decide)⟩

/-- C4 counterexample: a non-empty session with consolidation watermark 1
whose unconsolidated suffix contains no user message at all — `get_history`
returns it untrimmed, and its first element has role `assistant`, not
`user`. -/
theorem c4_history_first_not_user :
    sessionNoUser.messages.length = 2 ∧ sessionNoUser.last_consolidated = 1 ∧
    (getHistory sessionNoUser).map Msg.role = ["assistant"] :=
  ⟨rfl, rfl, rfl⟩

/-- C4 (amended): whenever the unconsolidated suffix contains at least one
message with role `user`, `get_history` starts at the first such message,
dropping any leading non-user remnant — so its first element has role
`user`; a suffix containing no user message is returned untrimmed. -/
theorem c4_history_starts_at_user (s : Session)
    (h : ∃ m ∈ s.messages.drop s.last_consolidated, m.msg.role = "user") :
    ∃ m rest, getHistory s = m :: rest ∧ m.role = "user" := by
  have hsome := firstUserSuffix_isSome (s.messages.drop s.last_consolidated) h
  cases hfs : firstUserSuffix (s.messages.drop s.last_consolidated) with
  | none => rw [hfs] at hsome; simp at hsome
  | some r =>
    obtain ⟨m, t, hr, hrole⟩ := firstUserSuffix_head _ r hfs
    refine ⟨m.msg, t.map (fun x => x.msg), ?_, hrole⟩
    simp [getHistory, hfs, hr]

/-- Witness for amended C4: a suffix starting with a tool remnant followed
by a user message yields a history starting with that user message. -/
theorem c4_history_starts_at_user_witness :
    (∃ m ∈ sessionWithUser.messages.drop sessionWithUser.last_consolidated,
      m.msg.role = "user") ∧
    ∃ m rest, getHistory sessionWithUser = m :: rest ∧ m.role = "user" := by
  have hex : ∃ m ∈ sessionWithUser.messages.drop sessionWithUser.last_consolidated,
      m.msg.role = "user" :=
    ⟨⟨⟨"user", "next", [], none, none⟩, "t1"⟩, by simp [sessionWithUser], rfl⟩
  exact ⟨hex, c4_history_starts_at_user sessionWithUser hex⟩

/-- C10: the key sanitization of `SessionManager.get` is not injective —
starting from an empty registry, the distinct conversation keys `a:b` and
`a/b` create two distinct `Session` objects (registered under different
keys) whose backing storage file paths are the same file. -/
theorem c10_session_path_collision :
    (managerGet ([] : Registry) "a:b").1.key ≠
      (managerGet (managerGet ([] : Registry) "a:b").2 "a/b").1.key ∧
    (managerGet ([] : Registry) "a:b").1.path =
      (managerGet (managerGet ([] : Registry) "a:b").2 "a/b").1.path ∧
    (managerGet ([] : Registry) "a:b").1.path = "sessions/a_b.jsonl" :=
  ⟨by decide, rfl, rfl⟩

/-- C9: for every JSON parser behaviour and every tool call whose
serialized argument payload fails to parse, the decoded arguments mapping
is the empty mapping, and `chat` still returns a normal response carrying
the tool call — the round does not fail. -/
theorem c9_malformed_args_empty (parse : String → Except String JVal)
    (tc : RawToolCall) (err : String) (choice : RawChoice) (rest : List RawChoice)
    (hne : tc.arguments ≠ "")
    (hfail : parse tc.arguments = Except.error err)
    (hmsg : choice.message.tool_calls = some [tc]) :
    mkToolCall parse tc = ⟨tc.id, tc.name, JVal.jobj []⟩ ∧
    chat parse (Except.ok ⟨choice :: rest⟩) = Except.ok
      { content := some (choice.message.content.getD "")
        tool_calls := [⟨tc.id, tc.name, JVal.jobj []⟩]
        finish_reason := choice.finish_reason.getD "stop" } := by
  have hdec : decodeToolArgs parse tc.arguments = JVal.jobj [] := by
    simp [decodeToolArgs, hne, hfail]
  constructor
  · simp [mkToolCall, hdec]
  · simp [chat, hmsg, mkToolCall, hdec]

/-- Witness for C9 with a concrete parser and a non-JSON payload. -/
theorem c9_malformed_args_empty_witness :
    parseW rawToolCallW.arguments = Except.error "Expecting value: line 1 column 1 (char 0)" ∧
    mkToolCall parseW rawToolCallW = ⟨"call_9", "shell", JVal.jobj []⟩ ∧
    chat parseW (Except.ok ⟨[rawChoiceW]⟩) = Except.ok
      { content := some "", tool_calls := [⟨"call_9", "shell", JVal.jobj []⟩]
        finish_reason := "tool_calls" } := by
  have h := c9_malformed_args_empty parseW rawToolCallW
    "Expecting value: line 1 column 1 (char 0)" rawChoiceW []
    (by simp [rawToolCallW]) (by simp [parseW, rawToolCallW]) rfl
  exact ⟨by simp [parseW, rawToolCallW], h.1, h.2⟩

/-- C5 counterexample: a transport success whose `choices` list is empty
makes `chat` raise `IndexError` at `resp.choices[0]` instead of returning
a synthetic response — so `chat` can raise to the Agent Loop. -/
theorem c5_chat_empty_choices_raises :
    chat (fun _ => Except.error "unused") (Except.ok ⟨[]⟩) =
      Except.error PyErr.indexError :=
  rfl

/-- C5 (amended): when the completions call raises, `chat` returns — never
raises — a synthetic response with `finish_reason` `error` whose content
carries the error text; when the call succeeds with at least one choice,
`chat` returns normalized content (`None` becoming the empty string), the
decoded tool-call list (empty if none) and a finish reason (`None`
becoming `stop`); only a successful response with an empty `choices` list
raises. -/
theorem c5_chat_normalizes (parse : String → Except String JVal) (e : String)
    (resp : RawResponse) (choice : RawChoice) (rest : List RawChoice)
    (hc : resp.choices = choice :: rest) :
    chat parse (Except.error e) = Except.ok
      { content := some ("Error: " ++ e), tool_calls := [], finish_reason := "error" } ∧
    chat parse (Except.ok resp) = Except.ok
      { content := some (choice.message.content.getD "")
        tool_calls := (choice.message.tool_calls.getD []).map (mkToolCall parse)
        finish_reason := choice.finish_reason.getD "stop" } := by
  constructor
  · rfl
  · cases resp with
    | mk choices => cases hc; rfl

/-- Witness for amended C5: connection error and a one-choice success. -/
theorem c5_chat_normalizes_witness :
    chat parseW (Except.error "Connection error.") = Except.ok
      { content := some "Error: Connection error.", tool_calls := []
        finish_reason := "error" } ∧
    chat parseW (Except.ok ⟨[⟨⟨some "hello", none⟩, some "stop"⟩]⟩) = Except.ok
      { content := some "hello", tool_calls := [], finish_reason := "stop" } := by
  have h := c5_chat_normalizes parseW "Connection error."
    ⟨[⟨⟨some "hello", none⟩, some "stop"⟩]⟩ ⟨⟨some "hello", none⟩, some "stop"⟩ [] rfl
  exact ⟨h.1, h.2⟩

/-- C2: on a readable, writable file whose text contains `old` exactly
once (in the source's non-overlapping left-to-right counting), both
`edit_file` and single-pair `patch_file` produce the file that is the
original with that one occurrence substituted (witnessed by the
decomposition `p ++ old ++ s ↦ p ++ new ++ s`), touching no other file;
when `old` is absent or occurs more than once, the filesystem is left
byte-for-byte unchanged and the returned error names the cause. -/
theorem c2_edit_file_exact (env : Env) (path old new text : String)
    (hread : env.fs.read path = some text) (hw : env.writeOk path = true) :
    (pyCount text.data old.data = 1 →
      ∃ p s, text.data = p ++ old.data ++ s ∧
        (editFile env path old new).2 = "Edited " ++ path ∧
        (editFile env path old new).1.fs.read path =
          some (String.mk (p ++ new.data ++ s)) ∧
        (∀ q, q ≠ path → (editFile env path old new).1.fs.read q = env.fs.read q) ∧
        (patchFile env path [⟨old, new⟩]).2 = "Patched 1 location(s) in " ++ path ∧
        (patchFile env path [⟨old, new⟩]).1.fs.read path =
          some (String.mk (p ++ new.data ++ s)) ∧
        (∀ q, q ≠ path → (patchFile env path [⟨old, new⟩]).1.fs.read q = env.fs.read q)) ∧
    (pyCount text.data old.data = 0 →
      (editFile env path old new).1 = env ∧
      (editFile env path old new).2 = "Error: `old` not found in file" ∧
      (patchFile env path [⟨old, new⟩]).1 = env ∧
      (patchFile env path [⟨old, new⟩]).2 = "Patch failed:\nPatch 0: `old` not found") ∧
    (1 < pyCount text.data old.data →
      (editFile env path old new).1 = env ∧
      (editFile env path old new).2 = "Error: `old` matches " ++
        toString (pyCount text.data old.data) ++ " times (must be unique)" ∧
      (patchFile env path [⟨old, new⟩]).1 = env ∧
      (patchFile env path [⟨old, new⟩]).2 = "Patch failed:\n" ++
        ("Patch 0: `old` matches " ++ toString (pyCount text.data old.data) ++
          " times (must be unique)")) := by
  refine ⟨?_, ?_, ?_⟩
  · intro h1
    obtain ⟨p, s, hdecomp, hrep⟩ :=
      pyReplaceFirst_decomp text.data old.data new.data (by omega)
    have hEdit : editFile env path old new =
        ({ env with fs := env.fs.write path (String.mk (pyReplaceFirst text.data old.data new.data)) },
          "Edited " ++ path) := by
      simp [editFile, hread, editCore, h1, hw]
    have hPL : patchLoop 0 text.data [⟨old, new⟩] =
        ([], pyReplaceFirst text.data old.data new.data) := by
      simp [patchLoop, h1]
    have hPatch : patchFile env path [⟨old, new⟩] =
        ({ env with fs := env.fs.write path (String.mk (pyReplaceFirst text.data old.data new.data)) },
          "Patched " ++ toString (1 : Nat) ++ " location(s) in " ++ path) := by
      simp [patchFile, hread, hPL, hw]
    refine ⟨p, s, hdecomp, ?_, ?_, ?_, ?_, ?_, ?_⟩
    · rw [hEdit]
    · rw [hEdit, hrep]; exact FS.read_write_self env.fs path _
    · intro q hq; rw [hEdit]; exact FS.read_write_ne env.fs path _ q hq
    · rw [hPatch]; rfl
    · rw [hPatch, hrep]; exact FS.read_write_self env.fs path _
    · intro q hq; rw [hPatch]; exact FS.read_write_ne env.fs path _ q hq
  · intro h0
    have hEdit : editFile env path old new = (env, "Error: `old` not found in file") := by
      simp [editFile, hread, editCore, h0]
    have hPL : (patchLoop 0 text.data [⟨old, new⟩]).1 = ["Patch 0: `old` not found"] := by
      simp only [patchLoop, h0, if_pos]
      rfl
    have hPatch : patchFile env path [⟨old, new⟩] =
        (env, "Patch failed:\n" ++ String.intercalate "\n" ["Patch 0: `old` not found"]) := by
      simp [patchFile, hread, hPL]
    exact ⟨by rw [hEdit], by rw [hEdit], by rw [hPatch], by rw [hPatch]; rfl⟩
  · intro h2
    have h0' : ¬ pyCount text.data old.data = 0 := by omega
    have hEdit : editFile env path old new =
        (env, "Error: `old` matches " ++ toString (pyCount text.data old.data) ++
          " times (must be unique)") := by
      simp [editFile, hread, editCore, h0', h2]
    have hPL : (patchLoop 0 text.data [⟨old, new⟩]).1 =
        ["Patch 0: `old` matches " ++ toString (pyCount text.data old.data) ++
          " times (must be unique)"] := by
      simp only [patchLoop, h0', h2, if_neg, if_pos, ite_false, ite_true]
      rfl
    have hPatch : patchFile env path [⟨old, new⟩] =
        (env, "Patch failed:\n" ++ String.intercalate "\n"
          ["Patch 0: `old` matches " ++ toString (pyCount text.data old.data) ++
            " times (must be unique)"]) := by
      simp [patchFile, hread, hPL]
    exact ⟨by rw [hEdit], by rw [hEdit], by rw [hPatch], by rw [hPatch]; rfl⟩

/-- Witness for C2: editing `aba` with the unique occurrence of `b`. -/
theorem c2_edit_file_exact_witness :
    envABA.fs.read "/ws/f.txt" = some "aba" ∧
    pyCount "aba".data "b".data = 1 ∧
    ∃ p s, "aba".data = p ++ "b".data ++ s ∧
      (editFile envABA "/ws/f.txt" "b" "c").2 = "Edited " ++ "/ws/f.txt" ∧
      (editFile envABA "/ws/f.txt" "b" "c").1.fs.read "/ws/f.txt" =
        some (String.mk (p ++ "c".data ++ s)) ∧
      (∀ q, q ≠ "/ws/f.txt" →
        (editFile envABA "/ws/f.txt" "b" "c").1.fs.read q = envABA.fs.read q) ∧
      (patchFile envABA "/ws/f.txt" [⟨"b", "c"⟩]).2 =
        "Patched 1 location(s) in " ++ "/ws/f.txt" ∧
      (patchFile envABA "/ws/f.txt" [⟨"b", "c"⟩]).1.fs.read "/ws/f.txt" =
        some (String.mk (p ++ "c".data ++ s)) ∧
      (∀ q, q ≠ "/ws/f.txt" →
        (patchFile envABA "/ws/f.txt" [⟨"b", "c"⟩]).1.fs.read q = envABA.fs.read q) :=
  ⟨rfl, rfl,
    (c2_edit_file_exact envABA "/ws/f.txt" "b" "c" "aba" rfl rfl).1 rfl⟩

/-- C3 counterexample: file `ab`, patches `[{a→b}, {bb→z}]`.  The second
patch's `old` (`bb`) is absent from the file on disk (count 0), yet the
whole operation succeeds and rewrites the file to `z`, because each patch
is validated against the in-memory text with earlier patches already
applied — not against the original file, and not before applying any. -/
theorem c3_patch_validation_counterexample :
    envAB.fs.read "/ws/f.txt" = some "ab" ∧
    pyCount "ab".data "bb".data = 0 ∧
    (patchFile envAB "/ws/f.txt" [⟨"a", "b"⟩, ⟨"bb", "z"⟩]).2 =
      "Patched 2 location(s) in /ws/f.txt" ∧
    (patchFile envAB "/ws/f.txt" [⟨"a", "b"⟩, ⟨"bb", "z"⟩]).1.fs.read "/ws/f.txt" =
      some "z" :=
  ⟨rfl, rfl, rfl, rfl⟩

/-- C3 (amended): `patch_file` validates each patch against the
progressively patched in-memory text (all earlier successful patches
applied).  If every patch is valid under that progressive reading, all are
applied and written to disk in one write; otherwise the whole operation
fails, the file on disk is byte-for-byte unchanged (no partial write), and
the error message reports each failing patch's index and cause. -/
theorem c3_patch_file_atomic (env : Env) (path : String) (patches : List Patch)
    (text : String) (hread : env.fs.read path = some text)
    (hw : env.writeOk path = true) :
    (progressiveOk text.data patches →
      (patchFile env path patches).2 =
        "Patched " ++ toString patches.length ++ " location(s) in " ++ path ∧
      (patchFile env path patches).1.fs.read path =
        some (String.mk (progressiveApply text.data patches)) ∧
      ∀ q, q ≠ path → (patchFile env path patches).1.fs.read q = env.fs.read q) ∧
    (¬ progressiveOk text.data patches →
      (patchFile env path patches).1 = env ∧
      ∃ errs, errs ≠ [] ∧
        (patchFile env path patches).2 = "Patch failed:\n" ++ String.intercalate "\n" errs ∧
        ∀ e ∈ errs, ∃ j, j < patches.length ∧
          (e = "Patch " ++ toString j ++ ": `old` not found" ∨
           ∃ k, 2 ≤ k ∧ e = "Patch " ++ toString j ++ ": `old` matches " ++ toString k ++
             " times (must be unique)")) := by
  obtain ⟨hiff, happ⟩ := patchLoop_ok_iff patches 0 text.data
  constructor
  · intro hok
    have hp : patchLoop 0 text.data patches = ([], progressiveApply text.data patches) :=
      Prod.ext_iff.mpr ⟨hiff.mpr hok, happ hok⟩
    have hPF : patchFile env path patches =
        ({ env with fs := env.fs.write path (String.mk (progressiveApply text.data patches)) },
          "Patched " ++ toString patches.length ++ " location(s) in " ++ path) := by
      simp [patchFile, hread, hp, hw]
    refine ⟨by rw [hPF], ?_, ?_⟩
    · rw [hPF]; exact FS.read_write_self env.fs path _
    · intro q hq; rw [hPF]; exact FS.read_write_ne env.fs path _ q hq
  · intro hnot
    rcases hppl : patchLoop 0 text.data patches with ⟨errs, final⟩
    have herrs : errs ≠ [] := by
      intro h
      exact hnot (hiff.mp (by rw [hppl, h]))
    have hPF : patchFile env path patches =
        (env, "Patch failed:\n" ++ String.intercalate "\n" errs) := by
      simp [patchFile, hread, hppl, herrs]
    refine ⟨by rw [hPF], errs, herrs, by rw [hPF], ?_⟩
    intro e he
    obtain ⟨j, hj1, hj2, hj3⟩ :=
      patchLoop_errs_shape patches 0 text.data e (by rw [hppl]; exact he)
    exact ⟨j, by omega, hj3⟩

/-- Witness for amended C3: one progressive-valid patch applies and is
written; a not-found patch on the same file fails, leaves the file
unchanged and reports index 0. -/
theorem c3_patch_file_atomic_witness :
    progressiveOk "aba".data [(⟨"b", "c"⟩ : Patch)] ∧
    (patchFile envABA "/ws/f.txt" [⟨"b", "c"⟩]).2 = "Patched 1 location(s) in /ws/f.txt" ∧
    (patchFile envABA "/ws/f.txt" [⟨"b", "c"⟩]).1.fs.read "/ws/f.txt" = some "aca" ∧
    ¬ progressiveOk "aba".data [(⟨"zz", "c"⟩ : Patch)] ∧
    (patchFile envABA "/ws/f.txt" [⟨"zz", "c"⟩]).1 = envABA ∧
    ∃ errs, errs ≠ [] ∧
      (patchFile envABA "/ws/f.txt" [⟨"zz", "c"⟩]).2 =
        "Patch failed:\n" ++ String.intercalate "\n" errs ∧
      ∀ e ∈ errs, ∃ j, j < 1 ∧
        (e = "Patch " ++ toString j ++ ": `old` not found" ∨
         ∃ k, 2 ≤ k ∧ e = "Patch " ++ toString j ++ ": `old` matches " ++ toString k ++
           " times (must be unique)") := by
  have hok : progressiveOk "aba".data [(⟨"b", "c"⟩ : Patch)] := ⟨by decide, trivial⟩
  have hbad : ¬ progressiveOk "aba".data [(⟨"zz", "c"⟩ : Patch)] := by
    intro h
    have := h.1
    revert this
    decide
  have h1 := (c3_patch_file_atomic envABA "/ws/f.txt" [⟨"b", "c"⟩] "aba" rfl rfl).1 hok
  have h2 := (c3_patch_file_atomic envABA "/ws/f.txt" [⟨"zz", "c"⟩] "aba" rfl rfl).2 hbad
  exact ⟨hok, h1.1, h1.2.1, hbad, h2.1, h2.2⟩

theorem strTyped_exists (v : JVal) (h : strTyped v = true) : ∃ s, v = JVal.jstr s := by
  cases v with
  | jnull => simp [strTyped] at h
  | jbool b => simp [strTyped] at h
  | jint n => simp [strTyped] at h
  | jstr s => exact ⟨s, rfl⟩
  | jarr xs => simp [strTyped] at h
  | jobj fields => simp [strTyped] at h

theorem patchLoopDyn_typed_ok : ∀ (xs : List JVal) (i : Nat) (text : List Char),
    xs.all patchEntryTyped = true → ∃ r, patchLoopDyn i text xs = Except.ok r := by
  intro xs
  induction xs with
  | nil => intro i text _; exact ⟨([], text), rfl⟩
  | cons x xs ih =>
    intro i text h
    rw [List.all_cons, Bool.and_eq_true] at h
    obtain ⟨hx, hxs⟩ := h
    cases x with
    | jobj fields =>
      simp only [patchEntryTyped, Bool.and_eq_true] at hx
      obtain ⟨o, ho⟩ := strTyped_exists _ hx.1
      obtain ⟨n, hn⟩ := strTyped_exists _ hx.2
      by_cases h0 : pyCount text o.data = 0
      · obtain ⟨r, hr⟩ := ih (i + 1) text hxs
        simp only [patchLoopDyn, ho, pyStrArg, h0, hr, if_pos]
        exact ⟨_, rfl⟩
      · by_cases h2 : pyCount text o.data > 1
        · obtain ⟨r, hr⟩ := ih (i + 1) text hxs
          simp only [patchLoopDyn, ho, pyStrArg, hr, if_neg h0, if_pos h2]
          exact ⟨_, rfl⟩
        · obtain ⟨r, hr⟩ := ih (i + 1) (pyReplaceFirst text o.data n.data) hxs
          simp only [patchLoopDyn, ho, hn, pyStrArg, if_neg h0, if_neg h2, hr]
          exact ⟨r, rfl⟩
    | jnull => simp [patchEntryTyped] at hx
    | jbool b => simp [patchEntryTyped] at hx
    | jint k => simp [patchEntryTyped] at hx
    | jstr s => simp [patchEntryTyped] at hx
    | jarr ys => simp [patchEntryTyped] at hx

theorem patchFileDyn_typed_ok (env : Env) (path : String) (v : JVal)
    (h : patchesTyped v = true) : ∃ r, patchFileDyn env path v = Except.ok r := by
  cases v with
  | jarr xs =>
    cases hread : env.fs.read path with
    | none =>
      simp only [patchFileDyn, hread]
      exact ⟨_, rfl⟩
    | some text =>
      obtain ⟨r, hr⟩ := patchLoopDyn_typed_ok xs 0 text.data
        (by simpa [patchesTyped] using h)
      by_cases he : r.1 = []
      · by_cases hw : env.writeOk path = true
        · simp only [patchFileDyn, hread, hr, he, hw, ne_eq, not_true_eq_false,
            if_false, if_true]
          exact ⟨_, rfl⟩
        · simp only [patchFileDyn, hread, hr, he, hw, ne_eq, not_true_eq_false,
            if_false]
          exact ⟨_, rfl⟩
      · simp only [patchFileDyn, hread, hr, ne_eq, he, not_false_eq_true, if_true]
        exact ⟨_, rfl⟩
  | jnull => simp [patchesTyped] at h
  | jbool b => simp [patchesTyped] at h
  | jint k => simp [patchesTyped] at h
  | jstr s => simp [patchesTyped] at h
  | jobj fields => simp [patchesTyped] at h

theorem editFileDyn_typed_ok (env : Env) (path : String) (old new : JVal)
    (hold : strTyped old = true) (hnew : strTyped new = true) :
    ∃ r, editFileDyn env path old new = Except.ok r := by
  obtain ⟨o, ho⟩ := strTyped_exists _ hold
  obtain ⟨n, hn⟩ := strTyped_exists _ hnew
  subst ho hn
  cases hread : env.fs.read path with
  | none =>
    simp only [editFileDyn, hread]
    exact ⟨_, rfl⟩
  | some text =>
    by_cases h0 : pyCount text.data o.data = 0
    · simp only [editFileDyn, hread, editCoreDyn, pyStrArg, h0, if_pos]
      exact ⟨_, rfl⟩
    · by_cases h2 : pyCount text.data o.data > 1
      · simp only [editFileDyn, hread, editCoreDyn, pyStrArg, if_neg h0, if_pos h2]
        exact ⟨_, rfl⟩
      · by_cases hw : env.writeOk path = true
        · simp only [editFileDyn, hread, editCoreDyn, pyStrArg, if_neg h0, if_neg h2,
            hw, if_true]
          exact ⟨_, rfl⟩
        · simp only [editFileDyn, hread, editCoreDyn, pyStrArg, if_neg h0, if_neg h2,
            hw, if_false]
          exact ⟨_, rfl⟩

theorem shellBranch_ok (env : Env) (args : Args)
    (h : exceptOk (pyInt (args.getD "timeout" (JVal.jint 30))) = true) :
    ∃ z, shellBranch env args = Except.ok z := by
  obtain ⟨t, ht⟩ := exceptOk_exists _ h
  cases hs : env.shellOut (args.getD "cmd" (JVal.jstr "")) t with
  | completed out err =>
    simp only [shellBranch, ht, hs]
    exact ⟨_, rfl⟩
  | timedOut =>
    simp only [shellBranch, ht, hs]
    exact ⟨_, rfl⟩
  | exc msg =>
    simp only [shellBranch, ht, hs]
    exact ⟨_, rfl⟩

theorem readFileBranch_ok (env : Env) (args : Args) :
    ∃ z, readFileBranch env args = Except.ok z := by
  cases hp : pyPath (args.getD "path" (JVal.jstr "")) with
  | error e =>
    simp only [readFileBranch, hp]
    exact ⟨_, rfl⟩
  | ok p =>
    cases hr : env.fs.read (resolvePath env.workspace p) with
    | none =>
      simp only [readFileBranch, hp, hr]
      exact ⟨_, rfl⟩
    | some t =>
      simp only [readFileBranch, hp, hr]
      exact ⟨_, rfl⟩

theorem writeFileBranch_ok (env : Env) (args : Args)
    (h : strTyped (args.getD "path" (JVal.jstr "")) = true) :
    ∃ z, writeFileBranch env args = Except.ok z := by
  obtain ⟨p, hp⟩ := strTyped_exists _ h
  cases hc : args.getD "content" (JVal.jstr "") with
  | jstr c =>
    by_cases hw : env.writeOk (resolvePath env.workspace p) = true
    · simp only [writeFileBranch, hp, pyPath, hc, hw, if_true]
      exact ⟨_, rfl⟩
    · simp only [writeFileBranch, hp, pyPath, hc, hw, if_false]
      exact ⟨_, rfl⟩
  | jnull => simp only [writeFileBranch, hp, pyPath, hc]; exact ⟨_, rfl⟩
  | jbool b => simp only [writeFileBranch, hp, pyPath, hc]; exact ⟨_, rfl⟩
  | jint k => simp only [writeFileBranch, hp, pyPath, hc]; exact ⟨_, rfl⟩
  | jarr ys => simp only [writeFileBranch, hp, pyPath, hc]; exact ⟨_, rfl⟩
  | jobj fields => simp only [writeFileBranch, hp, pyPath, hc]; exact ⟨_, rfl⟩

theorem saveMemoryBranch_ok (env : Env) (args : Args)
    (h : strTyped (args.getD "content" (JVal.jstr "")) = true)
    (hml : env.memLoadOk = true) (hmw : env.memWriteOk = true) :
    ∃ z, saveMemoryBranch env args = Except.ok z := by
  obtain ⟨c, hc⟩ := strTyped_exists _ h
  by_cases hb : pyStrip c = ""
  · simp only [saveMemoryBranch, hc, pyStrAttr, hb, ne_eq, not_true_eq_false, if_false]
    exact ⟨_, rfl⟩
  · simp only [saveMemoryBranch, hc, pyStrAttr, ne_eq, hb, not_false_eq_true, if_true,
      hml, hmw, Bool.and_self]
    exact ⟨_, rfl⟩

theorem webSearch_ok (env : Env) (query count : JVal)
    (h : exceptOk (pyCmpInt count) = true) :
    ∃ r, webSearch env query count = Except.ok r := by
  by_cases hk : env.braveApiKey = ""
  · simp only [webSearch, hk, if_true]
    exact ⟨_, rfl⟩
  · obtain ⟨c, hc⟩ := exceptOk_exists _ h
    cases hs : env.searchRes query (min (max c 1) 10) with
    | ok results =>
      simp only [webSearch, hk, if_false, hc, hs]
      exact ⟨_, rfl⟩
    | error e =>
      simp only [webSearch, hk, if_false, hc, hs]
      exact ⟨_, rfl⟩

theorem runToolAgent_typed_ok (env : Env) (name : String) (args : Args)
    (h : argsOk name args) (hml : env.memLoadOk = true) (hmw : env.memWriteOk = true) :
    ∃ z, runToolAgent env name args = Except.ok z := by
  obtain ⟨hsh, hwf, hpf, hef, hsm, hws⟩ := h
  by_cases h1 : name = "shell"
  · simp only [runToolAgent, h1, if_true]
    exact shellBranch_ok env args (hsh h1)
  by_cases h2 : name = "read_file"
  · simp only [runToolAgent, h1, h2, if_false, if_true]
    exact readFileBranch_ok env args
  by_cases h3 : name = "write_file"
  · simp only [runToolAgent, h1, h2, h3, if_false, if_true]
    exact writeFileBranch_ok env args (hwf h3)
  by_cases h4 : name = "patch_file"
  · obtain ⟨hpath, hpatches⟩ := hpf h4
    obtain ⟨p, hp⟩ := strTyped_exists _ hpath
    obtain ⟨r, hr⟩ := patchFileDyn_typed_ok env (resolvePath env.workspace p)
      (args.getD "patches" (JVal.jarr [])) hpatches
    simp only [runToolAgent, h1, h2, h3, h4, if_false, if_true, hp, pyPath, hr]
    exact ⟨_, rfl⟩
  by_cases h5 : name = "save_memory"
  · simp only [runToolAgent, h1, h2, h3, h4, h5, if_false, if_true]
    exact saveMemoryBranch_ok env args (hsm h5) hml hmw
  by_cases h6 : name = "recall_memory"
  · simp only [runToolAgent, h1, h2, h3, h4, h5, h6, if_false, if_true, hml]
    exact ⟨_, rfl⟩
  by_cases h7 : name = "restart_self"
  · simp only [runToolAgent, h1, h2, h3, h4, h5, h6, h7, if_false, if_true]
    exact ⟨_, rfl⟩
  by_cases h8 : name = "web_search"
  · obtain ⟨r, hr⟩ := webSearch_ok env (args.getD "query" (JVal.jstr ""))
      (args.getD "count" (JVal.jint 5)) (hws h8)
    simp only [runToolAgent, h1, h2, h3, h4, h5, h6, h7, h8, if_false, if_true, hr]
    exact ⟨_, rfl⟩
  by_cases h9 : name = "web_fetch"
  · simp only [runToolAgent, h1, h2, h3, h4, h5, h6, h7, h8, h9, if_false, if_true]
    exact ⟨_, rfl⟩
  · simp only [runToolAgent, h1, h2, h3, h4, h5, h6, h7, h8, h9, if_false]
    exact ⟨_, rfl⟩

theorem runToolTools_typed_ok (env : Env) (name : String) (args : Args)
    (h : argsOk name args) (hml : env.memLoadOk = true) (hmw : env.memWriteOk = true) :
    ∃ z, runToolTools env name args = Except.ok z := by
  obtain ⟨hsh, hwf, hpf, hef, hsm, hws⟩ := h
  by_cases h1 : name = "shell"
  · simp only [runToolTools, h1, if_true]
    exact shellBranch_ok env args (hsh h1)
  by_cases h2 : name = "read_file"
  · simp only [runToolTools, h1, h2, if_false, if_true]
    exact readFileBranch_ok env args
  by_cases h3 : name = "write_file"
  · simp only [runToolTools, h1, h2, h3, if_false, if_true]
    exact writeFileBranch_ok env args (hwf h3)
  by_cases h4 : name = "edit_file"
  · obtain ⟨hpath, hold, hnew⟩ := hef h4
    obtain ⟨p, hp⟩ := strTyped_exists _ hpath
    obtain ⟨r, hr⟩ := editFileDyn_typed_ok env (resolvePath env.workspace p)
      (args.getD "old" (JVal.jstr "")) (args.getD "new" (JVal.jstr "")) hold hnew
    simp only [runToolTools, h1, h2, h3, h4, if_false, if_true, hp, pyPath, hr]
    exact ⟨_, rfl⟩
  by_cases h5 : name = "save_memory"
  · simp only [runToolTools, h1, h2, h3, h4, h5, if_false, if_true]
    exact saveMemoryBranch_ok env args (hsm h5) hml hmw
  by_cases h6 : name = "recall_memory"
  · simp only [runToolTools, h1, h2, h3, h4, h5, h6, if_false, if_true, hml]
    exact ⟨_, rfl⟩
  by_cases h7 : name = "restart_self"
  · simp only [runToolTools, h1, h2, h3, h4, h5, h6, h7, if_false, if_true]
    exact ⟨_, rfl⟩
  by_cases h8 : name = "web_search"
  · obtain ⟨r, hr⟩ := webSearch_ok env (args.getD "query" (JVal.jstr ""))
      (args.getD "count" (JVal.jint 5)) (hws h8)
    simp only [runToolTools, h1, h2, h3, h4, h5, h6, h7, h8, if_false, if_true, hr]
    exact ⟨_, rfl⟩
  by_cases h9 : name = "web_fetch"
  · simp only [runToolTools, h1, h2, h3, h4, h5, h6, h7, h8, h9, if_false, if_true]
    exact ⟨_, rfl⟩
  · simp only [runToolTools, h1, h2, h3, h4, h5, h6, h7, h8, h9, if_false]
    exact ⟨_, rfl⟩

/-- C1 (amended): for every registered or unknown tool name, every
argument mapping whose provided values conform to the tool schema's
declared parameter types, and every behaviour of the external effects the
source guards with a `try` (tool-file reads and writes may fail, the
subprocess may time out or raise, the network may fail), both tool
executors return a `(result_text, should_restart)` pair and propagate no
exception — every such failure is encoded in the returned text — provided
the memory store's own file I/O succeeds.  The two unguarded raise paths
remain: argument conversions evaluated outside a `try` (e.g. a non-numeric
shell `timeout`), and the memory store's `read_text`/`write_text` inside
`memory.load()`/`memory.append(c)`, which the `save_memory` /
`recall_memory` branches call outside any `try`. -/
theorem c1_tool_typed_no_exception (envA envB : Env) (name : String) (args : Args)
    (h : argsOk name args)
    (hA : envA.memLoadOk = true ∧ envA.memWriteOk = true)
    (hB : envB.memLoadOk = true ∧ envB.memWriteOk = true) :
    (∃ z, runToolAgent envA name args = Except.ok z) ∧
    (∃ z, runToolTools envB name args = Except.ok z) :=
  ⟨runToolAgent_typed_ok envA name args h hA.1 hA.2,
   runToolTools_typed_ok envB name args h hB.1 hB.2⟩

/-- Witness for amended C1: a schema-conformant `patch_file` /
`edit_file`-era argument mapping executes without exception in both
executors. -/
theorem c1_tool_typed_no_exception_witness :
    argsOk "patch_file" [("path", JVal.jstr "f.txt"),
      ("patches", JVal.jarr [JVal.jobj [("old", JVal.jstr "a"), ("new", JVal.jstr "b")]])] ∧
    (∃ z, runToolAgent env0 "patch_file" [("path", JVal.jstr "f.txt"),
      ("patches", JVal.jarr [JVal.jobj [("old", JVal.jstr "a"), ("new", JVal.jstr "b")]])] =
        Except.ok z) ∧
    (∃ z, runToolTools env0 "patch_file" [("path", JVal.jstr "f.txt"),
      ("patches", JVal.jarr [JVal.jobj [("old", JVal.jstr "a"), ("new", JVal.jstr "b")]])] =
        Except.ok z) := by
  have hargs : argsOk "patch_file" [("path", JVal.jstr "f.txt"),
      ("patches", JVal.jarr [JVal.jobj [("old", JVal.jstr "a"), ("new", JVal.jstr "b")]])] := by
    refine ⟨?_, ?_, ?_, ?_, ?_, ?_⟩ <;> intro hn
    · exact absurd hn (by decide)
    · exact absurd hn (by decide)
    · exact ⟨rfl, rfl⟩
    · exact absurd hn (by decide)
    · exact absurd hn (by decide)
    · exact absurd hn (by decide)
  exact ⟨hargs,
    c1_tool_typed_no_exception env0 env0 "patch_file" _ hargs ⟨rfl, rfl⟩ ⟨rfl, rfl⟩⟩

/-- C1 counterexample: the claim fails on two concrete raise paths.
First, `int(args.get("timeout", 30))` in the shell branch is evaluated
outside the `try`, so a non-numeric `timeout` string makes both executors
propagate a `ValueError` to the Agent Loop instead of returning a textual
result.  Second, even with perfectly schema-typed arguments, a memory-file
disk failure makes `save_memory` (via `memory.append`) and `recall_memory`
(via `memory.load`) propagate an `OSError`, since neither call is wrapped
in a `try`. -/
theorem c1_shell_timeout_raises :
    runToolAgent env0 "shell"
      [("cmd", JVal.jstr "ls"), ("timeout", JVal.jstr "30s")] =
      Except.error PyErr.valueError ∧
    runToolTools env0 "shell"
      [("cmd", JVal.jstr "ls"), ("timeout", JVal.jstr "30s")] =
      Except.error PyErr.valueError ∧
    runToolAgent envMemFail "save_memory"
      [("content", JVal.jstr "remember this")] = Except.error PyErr.osError ∧
    runToolTools envMemFail "save_memory"
      [("content", JVal.jstr "remember this")] = Except.error PyErr.osError ∧
    runToolAgent envMemFail "recall_memory" [] = Except.error PyErr.osError ∧
    runToolTools envMemFail "recall_memory" [] = Except.error PyErr.osError :=
  ⟨rfl, rfl, rfl, rfl, rfl, rfl⟩

end KKBot
